import Mathlib

/-
Verification of the ulauncher-fontawesome core against its specification.

The embedding models the three core components of the repository:
  * the SVG recoloring engine  (src/svg_helper.py: modify_svg_color,
    update_svg_colors),
  * the query matcher / ranker (src/main.py: KeywordQueryEventListener
    ._search_icons),
  * the copy-content generator (src/main.py: get_copy_content).

Python strings are modelled as lists of characters (`Str`).  Lower-casing is
modelled by `Char.toLower`, which agrees with Python's str.lower on the ASCII
strings the catalog contains.  The file system is modelled as a map from a
path to the outcome of reading that path (`FS`), so that exception handling
around file reads can be stated faithfully.  Python regular-expression
substitution `re.sub(r'fill="[^"]*"', repl, s)` is modelled by an explicit
left-to-right scan (`subFill`), including CPython's eager compilation of the
replacement template (group references and escape sequences), which is
observable through the `except` clause of modify_svg_color.
-/

/-- Characters of a Python string, modelled as a list of characters. -/
abbrev Str := List Char

/-- Characters of a Lean string literal, used to write concrete inputs. -/
def str (s : String) : Str := s.data

/-- Python substring test: the semantics of the expression `pat in s` on
strings (the empty pattern is contained in every string). -/
def containsSub (pat : Str) : Str → Bool
  | [] => pat.isEmpty
  | c :: rest => pat.isPrefixOf (c :: rest) || containsSub pat rest

/-- Characters of the literal `<svg` tested and replaced by modify_svg_color
in src/svg_helper.py. -/
def svgTag : Str := str "<svg"

/-- Characters of the literal `fill=` whose presence modify_svg_color tests
to choose between inserting and substituting. -/
def fillEq : Str := str "fill="

/-- Characters opening a double-quoted fill attribute; this is the fixed
part of the regular expression in src/svg_helper.py line 38. -/
def fillQuote : Str := str "fill=\""

/-- Scan for the first double quote of a string: on success, returns the
characters before the quote and the characters after it.  This is how the
regular expression `fill="[^"]*"` finds the closing quote of a match: the
negated class cannot cross a quote, so the match extends exactly to the
first following quote, and fails if there is none. -/
def findCloseQuote : Str → Option (Str × Str)
  | [] => none
  | c :: rest =>
    if c = '"' then some ([], rest)
    else (findCloseQuote rest).map (fun p => (c :: p.1, p.2))

theorem findCloseQuote_length {l inner after : Str}
    (h : findCloseQuote l = some (inner, after)) :
    inner.length + 1 + after.length = l.length := by
  induction l generalizing inner after with
  | nil => simp [findCloseQuote] at h
  | cons c rest ih =>
    by_cases hc : c = '"'
    · simp [findCloseQuote, hc] at h
      obtain ⟨h1, h2⟩ := h
      subst h1; subst h2; simp; omega
    · rw [findCloseQuote] at h
      rw [if_neg hc] at h
      rcases hfc : findCloseQuote rest with _ | p
      · rw [hfc] at h; simp at h
      · rw [hfc] at h
        simp only [Option.map_some'] at h
        rw [Option.some_inj, Prod.ext_iff] at h
        obtain ⟨h1, h2⟩ := h
        simp only [] at h1 h2
        have hrec : p.1.length + 1 + p.2.length = rest.length := ih (by rw [hfc])
        rw [← h1, ← h2]
        simp
        omega

/-- One token of a compiled re.sub replacement template: either a literal
character or a reference to group 0 (the whole match).  The pattern
`fill="[^"]*"` has no capture groups, so any reference to a group other
than 0 is a compile-time error in CPython. -/
inductive Tok where
  | lit (c : Char)
  | g0
deriving DecidableEq

/-- Read a `\g<name>` group name: the characters up to the closing `>`. -/
def readGroupName : Str → Option (Str × Str)
  | [] => none
  | c :: r =>
    if c = '>' then some ([], r)
    else (readGroupName r).map (fun p => (c :: p.1, p.2))

theorem readGroupName_length {l name rest : Str}
    (h : readGroupName l = some (name, rest)) :
    name.length + 1 + rest.length = l.length := by
  induction l generalizing name rest with
  | nil => simp [readGroupName] at h
  | cons c r ih =>
    by_cases hc : c = '>'
    · simp [readGroupName, hc] at h
      obtain ⟨h1, h2⟩ := h
      subst h1; subst h2; simp; omega
    · rw [readGroupName] at h
      rw [if_neg hc] at h
      rcases hfc : readGroupName r with _ | p
      · rw [hfc] at h; simp at h
      · rw [hfc] at h
        simp only [Option.map_some'] at h
        rw [Option.some_inj, Prod.ext_iff] at h
        obtain ⟨h1, h2⟩ := h
        simp only [] at h1 h2
        have hrec : p.1.length + 1 + p.2.length = r.length := ih (by rw [hfc])
        rw [← h1, ← h2]
        simp
        omega

/-- Octal digit test for the `\0oo` escapes of a replacement template. -/
def isOct (c : Char) : Bool := '0' ≤ c && c ≤ '7'

/-- Standard character escapes accepted inside a re.sub replacement
template (CPython sre ESCAPES table); other escapes of ASCII letters are
bad escapes, and other escapes of non-letters are left alone. -/
def escChar (c : Char) : Option Char :=
  if c = 'a' then some (Char.ofNat 7)
  else if c = 'b' then some (Char.ofNat 8)
  else if c = 'f' then some (Char.ofNat 12)
  else if c = 'n' then some (Char.ofNat 10)
  else if c = 'r' then some (Char.ofNat 13)
  else if c = 't' then some (Char.ofNat 9)
  else if c = 'v' then some (Char.ofNat 11)
  else none

/-- ASCII letter test: CPython reserves unknown escapes of ASCII letters as
errors and leaves every other unknown escape alone. -/
def isAsciiLetter (c : Char) : Bool :=
  ('a' ≤ c && c ≤ 'z') || ('A' ≤ c && c ≤ 'Z')

/-- Whitespace stripped by Python int() around a numeric string, modelled
for the ASCII whitespace characters (CPython also strips their non-ASCII
Unicode counterparts, which the catalog's ASCII colors never contain). -/
def isPyIntSpace (c : Char) : Bool :=
  c = ' ' || c = Char.ofNat 9 || c = Char.ofNat 10 || c = Char.ofNat 11 ||
    c = Char.ofNat 12 || c = Char.ofNat 13

/-- Strip int()-style whitespace from both ends of a string. -/
def trimPySpace (s : Str) : Str :=
  ((s.dropWhile isPyIntSpace).reverse.dropWhile isPyIntSpace).reverse

/-- Digit part of Python int(): ASCII decimal digits with single underscores
allowed between digits (CPython also accepts non-ASCII Unicode decimal
digits, not modelled for the same reason as above). -/
def pyIntGo (acc : Nat) : Str → Option Nat
  | [] => some acc
  | '_' :: r =>
    match r with
    | d :: r2 => if d.isDigit then pyIntGo (acc * 10 + (d.toNat - 48)) r2 else none
    | [] => none
  | d :: r => if d.isDigit then pyIntGo (acc * 10 + (d.toNat - 48)) r else none

/-- Python int() on a string, restricted to nonnegative results written with
an optional plus sign: whitespace is stripped and underscores may separate
digits. -/
def pyIntDigits : Str → Option Nat
  | [] => none
  | c :: r => if c.isDigit then pyIntGo (c.toNat - 48) r else none

/-- Resolution of a \g<name> group name by CPython's parse_template against
a pattern with no capture groups: the name is converted with int() (which
strips surrounding whitespace and accepts a sign and underscore digit
separators); a negative value, a non-numeric name and an unknown named
group are all errors, so only a name denoting 0 (the whole match) resolves;
a positive index is an invalid group reference for this pattern and is
rejected by the caller. -/
def groupOfName (name : Str) : Option Nat :=
  match trimPySpace name with
  | '+' :: r => pyIntDigits r
  | '-' :: r =>
    match pyIntDigits r with
    | some 0 => some 0
    | _ => none
  | r => pyIntDigits r

/-- Parse one escape sequence of a re.sub replacement template, given the
characters following the backslash: on success, the produced tokens and the
remaining input, following CPython's parse_template.  `\\` is a literal
backslash; `\g<name>` is a group reference, valid only when the name
resolves to group 0 (the pattern `fill="[^"]*"` has no capture groups, so
every other group is an error); `\0` starts an octal escape of up to two
more octal digits; another digit starts either a three-octal-digit literal
(value at most 0o377) or an invalid group reference of one or two digits;
the seven letter escapes come from `escChar`; any other escaped ASCII
letter is a bad escape; and every other escaped character is left alone,
keeping its backslash. -/
def parseEscape : Str → Option (List Tok × Str)
  | [] => none
  | d :: r2 =>
    if d = '\\' then some ([Tok.lit '\\'], r2)
    else if d = 'g' then
      match r2 with
      | '<' :: r3 =>
        match readGroupName r3 with
        | some p =>
          match groupOfName p.1 with
          | some 0 => some ([Tok.g0], p.2)
          | _ => none
        | none => none
      | _ => none
    else if d = '0' then
      match r2 with
      | e1 :: r3 =>
        if isOct e1 then
          match r3 with
          | e2 :: r4 =>
            if isOct e2 then
              some ([Tok.lit (Char.ofNat ((e1.toNat - 48) * 8 + (e2.toNat - 48)))], r4)
            else some ([Tok.lit (Char.ofNat (e1.toNat - 48))], r3)
          | [] => some ([Tok.lit (Char.ofNat (e1.toNat - 48))], [])
        else some ([Tok.lit (Char.ofNat 0)], r2)
      | [] => some ([Tok.lit (Char.ofNat 0)], [])
    else if d.isDigit then
      match r2 with
      | e2 :: r3 =>
        if e2.isDigit then
          match r3 with
          | e3 :: r4 =>
            if isOct d && isOct e2 && isOct e3 then
              if (d.toNat - 48) * 64 + (e2.toNat - 48) * 8 + (e3.toNat - 48) > 255
              then none
              else some
                ([Tok.lit (Char.ofNat
                  ((d.toNat - 48) * 64 + (e2.toNat - 48) * 8 + (e3.toNat - 48)))], r4)
            else none
          | [] => none
        else none
      | [] => none
    else
      match escChar d with
      | some e => some ([Tok.lit e], r2)
      | none =>
        if isAsciiLetter d then none
        else some ([Tok.lit '\\', Tok.lit d], r2)

theorem readGroupName_length' {l : Str} {p : Str × Str}
    (h : readGroupName l = some p) : p.1.length + 1 + p.2.length = l.length := by
  rcases p with ⟨a, b⟩
  exact readGroupName_length h

theorem parseEscape_length {l rest : Str} {ts : List Tok}
    (h : parseEscape l = some (ts, rest)) : rest.length < l.length := by
  match l with
  | [] => simp [parseEscape] at h
  | d :: r2 =>
    rw [parseEscape.eq_def] at h
    simp only [] at h
    repeat' split at h
    all_goals try simp at h
    all_goals try (cases h; subst_vars; simp; try omega)
    all_goals
      have hgl := readGroupName_length' (by assumption : readGroupName _ = some _)
      simp
      omega

/-- Compilation of a re.sub replacement template for a pattern with no
capture groups, as CPython performs it eagerly when re.sub is called (even
when the pattern never matches anywhere in the subject).  A failed
compilation raises re.error in Python; here it returns `none`. -/
def compileTemplate : Str → Option (List Tok)
  | [] => some []
  | c :: r =>
    if c = '\\' then
      match hp : parseEscape r with
      | some q => (compileTemplate q.2).map (fun ts => q.1 ++ ts)
      | none => none
    else (compileTemplate r).map (fun ts => Tok.lit c :: ts)
termination_by l => l.length
decreasing_by
  · have := parseEscape_length hp
    simp
    omega
  · simp

/-- Rendering of a compiled template at a match: literal tokens produce
their character, a group-0 token produces the whole matched text `m`. -/
def renderToks (m : Str) : List Tok → Str
  | [] => []
  | Tok.lit c :: ts => c :: renderToks m ts
  | Tok.g0 :: ts => m ++ renderToks m ts

/-- Tokens of an all-literal template. -/
def litToks (s : Str) : List Tok := s.map Tok.lit

/-- Left-to-right, non-overlapping substitution of every match of the
regular expression `fill="[^"]*"` by the rendered replacement template, as
re.sub performs it: at each position the engine tries to match; a match
needs the opening `fill="` and a closing quote, extends to the first
following quote, and scanning resumes after the match; on failure the scan
advances one character. -/
def subFill (toks : List Tok) (l : Str) : Str :=
  match l with
  | [] => []
  | c :: rest =>
    if fillQuote.isPrefixOf (c :: rest) then
      match hm : findCloseQuote (rest.drop 5) with
      | some p => renderToks (fillQuote ++ p.1 ++ ['"']) toks ++ subFill toks p.2
      | none => c :: subFill toks rest
    else c :: subFill toks rest
termination_by l.length
decreasing_by
  · have := findCloseQuote_length hm
    have h2 : (rest.drop 5).length ≤ rest.length := by simp
    simp at this ⊢
    omega
  · simp
  · simp

/-- Decision of whether the regular expression `fill="[^"]*"` matches
anywhere in the string (same scan as `subFill`). -/
def hasFillMatch : Str → Bool
  | [] => false
  | c :: rest =>
    (fillQuote.isPrefixOf (c :: rest) && (findCloseQuote (rest.drop 5)).isSome)
      || hasFillMatch rest

/-- Sequence of the values of the double-quoted fill attributes of a
document, in the order and with the extent the regular expression
`fill="[^"]*"` matches them. -/
def fillValues (l : Str) : List Str :=
  match l with
  | [] => []
  | c :: rest =>
    if fillQuote.isPrefixOf (c :: rest) then
      match hm : findCloseQuote (rest.drop 5) with
      | some p => p.1 :: fillValues p.2
      | none => fillValues rest
    else fillValues rest
termination_by l.length
decreasing_by
  · have := findCloseQuote_length hm
    have h2 : (rest.drop 5).length ≤ rest.length := by simp
    simp at this ⊢
    omega
  · simp
  · simp

/-- Python str.replace of every occurrence of `<svg` by `repl`: leftmost,
non-overlapping, and the replacement text is not rescanned.  This models
line 36 of src/svg_helper.py. -/
def replaceSvg (repl : Str) (l : Str) : Str :=
  match l with
  | [] => []
  | c :: rest =>
    if svgTag.isPrefixOf (c :: rest) then repl ++ replaceSvg repl (rest.drop 3)
    else c :: replaceSvg repl rest
termination_by l.length
decreasing_by
  · simp
    omega
  · simp

/-- Number of (leftmost, non-overlapping) occurrences of `<svg` in a
document, counted with the same scan str.replace uses. -/
def countSvg (l : Str) : Nat :=
  match l with
  | [] => 0
  | c :: rest =>
    if svgTag.isPrefixOf (c :: rest) then 1 + countSvg (rest.drop 3)
    else countSvg rest
termination_by l.length
decreasing_by
  · simp
    omega
  · simp

/-- Replacement text `<svg fill="{color}"` used on the insertion branch of
modify_svg_color (line 36 of src/svg_helper.py). -/
def insRepl (color : Str) : Str := str "<svg fill=\"" ++ color ++ str "\""

/-- Replacement template `fill="{color}"` passed to re.sub on the
substitution branch of modify_svg_color (line 38 of src/svg_helper.py). -/
def mkTemplate (color : Str) : Str := fillQuote ++ color ++ str "\""

/-- Substitution by the compiled template of a backslash-free color: the
template `fill="{color}"` then compiles to literal tokens only, and every
match is replaced by the same text `fill="{color}"`. -/
def subFillC (color : Str) : Str → Str := subFill (litToks (mkTemplate color))

/-- Core text transformation of modify_svg_color (lines 33-47 of
src/svg_helper.py): `none` means the function reports failure without
writing (no `<svg` tag, or re.sub raised while compiling the replacement
template and the exception was caught); `some s` means the text `s` is
written back and True is returned. -/
def modifyContent (content color : Str) : Option Str :=
  if containsSub svgTag content then
    if containsSub fillEq content = false then
      some (replaceSvg (insRepl color) content)
    else
      match compileTemplate (mkTemplate color) with
      | some toks => some (subFill toks content)
      | none => none
  else none

/-- Outcome of reading one file: missing, readable with some text, or a
read that raises an I/O error. -/
inductive ReadResult where
  | absent
  | ok (s : Str)
  | ioError
deriving DecidableEq

/-- File-system state: what reading each path yields. -/
def FS := Str → ReadResult

/-- modify_svg_color of src/svg_helper.py on one file: the new state of
that file paired with the returned boolean.  A missing file and a raising
read both return False and write nothing (the exception is caught by the
surrounding try); otherwise the text transformation decides the outcome. -/
def modify_svg_color : ReadResult → Str → ReadResult × Bool
  | ReadResult.absent, _ => (ReadResult.absent, false)
  | ReadResult.ioError, _ => (ReadResult.ioError, false)
  | ReadResult.ok s, color =>
    match modifyContent s color with
    | some s2 => (ReadResult.ok s2, true)
    | none => (ReadResult.ok s, false)

/-- os.path.join of two path components. -/
def pathJoin (a b : Str) : Str :=
  if b.head? = some '/' then b
  else if a = [] then b
  else if a.getLast? = some '/' then a ++ b
  else a ++ '/' :: b

/-- Update of the file-system state at one path. -/
def writeFS (fs : FS) (p : Str) (r : ReadResult) : FS :=
  fun q => if q = p then r else fs q

/-- Effect of one modify_svg_color call on the file system. -/
def modifyFileAt (fs : FS) (p color : Str) : FS :=
  writeFS fs p (modify_svg_color (fs p) color).1

/-- Python str.endswith('.svg'). -/
def svgSuffix (f : Str) : Bool := (str ".svg").isSuffixOf f

/-- Directory base/images of update_svg_colors. -/
def imagesDirOf (base : Str) : Str := pathJoin base (str "images")

/-- Directory base/images/icons of update_svg_colors. -/
def iconsDirOf (base : Str) : Str := pathJoin (imagesDirOf base) (str "icons")

/-- Path of the fallback icon recolored first by update_svg_colors. -/
def fallbackPath (base : Str) : Str := pathJoin (imagesDirOf base) (str "icon.svg")

/-- Path of one listed file inside the icons directory. -/
def iconFilePath (base f : Str) : Str := pathJoin (iconsDirOf base) f

/-- update_svg_colors of src/svg_helper.py: recolors the fallback icon,
then every listed file whose name ends in .svg, in listing order.
`listing` models the value of os.listdir(icons_dir).  modify_svg_color
never raises (it catches its own exceptions and returns False), so a
failing file never aborts the loop; the surrounding try/except only guards
os.listdir itself, which is modelled as having succeeded with `listing`. -/
def update_svg_colors (color base : Str) (listing : List Str) (fs : FS) : FS :=
  listing.foldl
    (fun acc f => if svgSuffix f then modifyFileAt acc (iconFilePath base f) color else acc)
    (modifyFileAt fs (fallbackPath base) color)

/-- Record data stored per icon name in the catalog.  Only search_terms
participates in ranked search; the other IconRecord fields (id, styles,
unicode) are read by the display/copy layer and are passed to
get_copy_content as separate arguments. -/
structure IconData where
  search_terms : List Str
deriving DecidableEq

/-- Python str.lower, restricted to the ASCII mapping (the catalog's icon
names and search terms are ASCII). -/
def lower (s : Str) : Str := s.map Char.toLower

/-- Candidate test of _search_icons (src/main.py lines 108-109): the
already-lowered query is a substring of the lowered icon name or of some
lowered search term. -/
def matchesQuery (q name : Str) (d : IconData) : Bool :=
  containsSub q (lower name) || d.search_terms.any (fun t => containsSub q (lower t))

/-- Relevance key of _search_icons (src/main.py lines 113-118): 0 for an
exact name match, 1 for a name starting with the query, 2 for a name
containing it elsewhere, 3 for a match through search terms only. -/
def tier (q name : Str) : Nat :=
  if lower name = q then 0
  else if q.isPrefixOf (lower name) then 1
  else if containsSub q (lower name) then 2
  else 3

/-- Candidates of _search_icons in catalog (insertion) order. -/
def matched_icons (q : Str) (icons : List (Str × IconData)) : List (Str × IconData) :=
  icons.filter (fun p => matchesQuery q p.1 p.2)

/-- Python's list.sort is a stable sort; for a key taking the four values
0,1,2,3 a stable sort of `l` is exactly the concatenation of the equal-key
sublists of `l` in key order, which is how the sort of src/main.py line
113 is modelled. -/
def sortByTier (q : Str) (l : List (Str × IconData)) : List (Str × IconData) :=
  l.filter (fun p => tier q p.1 == 0) ++ l.filter (fun p => tier q p.1 == 1) ++
  l.filter (fun p => tier q p.1 == 2) ++ l.filter (fun p => tier q p.1 == 3)

/-- _search_icons of src/main.py: lower the query, keep the matching
records in catalog order, stable-sort them by relevance key, and return
the first 10. -/
def search_icons (query : Str) (icons : List (Str × IconData)) : List (Str × IconData) :=
  (sortByTier (lower query) (matched_icons (lower query) icons)).take 10

/-- Style code of get_copy_content (src/main.py line 174). -/
def style_short (style : Str) : Char :=
  if style = str "solid" then 's' else if style = str "regular" then 'r' else 'b'

/-- HTML snippet built by several branches of get_copy_content. -/
def htmlSnippet (sc : Char) (icon_name : Str) : Str :=
  str "<i class=\"fa" ++ sc :: str " fa-" ++ icon_name ++ str "\"></i>"

/-- Bare class string of the class format. -/
def classSnippet (sc : Char) (icon_name : Str) : Str :=
  str "fa" ++ sc :: str " fa-" ++ icon_name

/-- Asset path base_dir/images/icons/{icon_id}.svg read by the svg
format. -/
def svgAssetPath (base_dir icon_id : Str) : Str :=
  pathJoin (pathJoin (pathJoin base_dir (str "images")) (str "icons")) (icon_id ++ str ".svg")

/-- get_copy_content of src/main.py (lines 171-195).  The lru_cache
decorator memoizes the underlying pure function; the cached function is
extensionally the function itself, so the returned string is modelled
directly.  The svg format reads the asset file: a missing file or a read
error (caught by the except clause) falls back to the html snippet. -/
def get_copy_content (format_type icon_name icon_id unicode_value style base_dir : Str)
    (fs : FS) : Str :=
  let sc := style_short style
  if format_type = str "html" then htmlSnippet sc icon_name
  else if format_type = str "class" then classSnippet sc icon_name
  else if format_type = str "unicode" then
    if unicode_value ≠ [] then str "&#" ++ unicode_value ++ str ";"
    else classSnippet sc icon_name
  else if format_type = str "svg" then
    match fs (svgAssetPath base_dir icon_id) with
    | ReadResult.ok s => s
    | ReadResult.absent => htmlSnippet sc icon_name
    | ReadResult.ioError => htmlSnippet sc icon_name
  else htmlSnippet sc icon_name

/- ------------------------------------------------------------------ -/
/- Basic lemmas about the string scanning primitives.                  -/
/- ------------------------------------------------------------------ -/

theorem mem_of_isPrefixOf {p l : Str} (h : p.isPrefixOf l = true) :
    ∀ a ∈ p, a ∈ l := by
  intro a ha
  exact (List.isPrefixOf_iff_prefix.mp h).sublist.subset ha

theorem isPrefixOf_append_self (p t : Str) : p.isPrefixOf (p ++ t) = true :=
  List.isPrefixOf_iff_prefix.mpr (List.prefix_append p t)

theorem exists_of_isPrefixOf {p l : Str} (h : p.isPrefixOf l = true) :
    ∃ t, l = p ++ t := by
  obtain ⟨t, ht⟩ := List.isPrefixOf_iff_prefix.mp h
  exact ⟨t, ht.symm⟩

theorem isPrefixOf_trans {p q l : Str} (h1 : p.isPrefixOf q = true)
    (h2 : q.isPrefixOf l = true) : p.isPrefixOf l = true :=
  List.isPrefixOf_iff_prefix.mpr
    ((List.isPrefixOf_iff_prefix.mp h1).trans (List.isPrefixOf_iff_prefix.mp h2))

theorem containsSub_cons {p : Str} {c : Char} {rest : Str}
    (h : containsSub p rest = true) : containsSub p (c :: rest) = true := by
  simp [containsSub, h]

theorem containsSub_of_isPrefixOf {p l : Str} (h : p.isPrefixOf l = true) :
    containsSub p l = true := by
  cases l with
  | nil => cases p <;> simp_all [containsSub, List.isPrefixOf]
  | cons c rest => simp [containsSub, h]

theorem containsSub_drop {p l : Str} {k : Nat}
    (h : containsSub p (l.drop k) = true) : containsSub p l = true := by
  induction k generalizing l with
  | zero => simpa using h
  | succ k ih =>
    cases l with
    | nil => simpa using h
    | cons c rest => exact containsSub_cons (ih (l := rest) (by simpa using h))

theorem not_containsSub_tail {p : Str} {c : Char} {rest : Str}
    (h : containsSub p (c :: rest) = false) : containsSub p rest = false := by
  rw [containsSub] at h
  simp only [Bool.or_eq_false_iff] at h
  exact h.2

theorem findCloseQuote_eq_none {l : Str} (h : '"' ∉ l) : findCloseQuote l = none := by
  induction l with
  | nil => rfl
  | cons c rest ih =>
    have hc : ¬ c = '"' := by intro e; exact h (by simp [e])
    rw [findCloseQuote, if_neg hc, ih (fun hm => h (List.mem_cons_of_mem _ hm))]
    rfl

theorem not_mem_of_findCloseQuote_none {l : Str} (h : findCloseQuote l = none) :
    '"' ∉ l := by
  induction l with
  | nil => simp
  | cons c rest ih =>
    by_cases hc : c = '"'
    · rw [findCloseQuote, if_pos hc] at h; simp at h
    · rw [findCloseQuote, if_neg hc] at h
      rw [Option.map_eq_none'] at h
      intro hm
      rcases List.mem_cons.mp hm with he | hm2
      · exact hc he.symm
      · exact ih h hm2

theorem findCloseQuote_append {a b : Str} (h : '"' ∉ a) :
    findCloseQuote (a ++ '"' :: b) = some (a, b) := by
  induction a with
  | nil => simp [findCloseQuote]
  | cons c r ih =>
    have hc : ¬ c = '"' := fun e => h (by simp [e])
    have hr : '"' ∉ r := fun hm => h (List.mem_cons_of_mem _ hm)
    rw [List.cons_append, findCloseQuote, if_neg hc, ih hr]
    rfl

theorem renderToks_litToks (m s : Str) : renderToks m (litToks s) = s := by
  induction s with
  | nil => rfl
  | cons c r ih => rw [litToks] at *; simp [renderToks, ih]

theorem compileTemplate_lit {s : Str} (h : '\\' ∉ s) :
    compileTemplate s = some (litToks s) := by
  induction s with
  | nil => simp [compileTemplate, litToks]
  | cons c r ih =>
    have hc : ¬ c = '\\' := fun e => h (by simp [e])
    have hr : '\\' ∉ r := fun hm => h (List.mem_cons_of_mem _ hm)
    rw [compileTemplate, if_neg hc, ih hr]
    simp [litToks]

/- ------------------------------------------------------------------ -/
/- Unfolding lemmas for the scanning functions.                        -/
/- ------------------------------------------------------------------ -/

theorem subFill_match {toks : List Tok} {c : Char} {rest inner after : Str}
    (h1 : fillQuote.isPrefixOf (c :: rest) = true)
    (h2 : findCloseQuote (rest.drop 5) = some (inner, after)) :
    subFill toks (c :: rest) =
      renderToks (fillQuote ++ inner ++ ['"']) toks ++ subFill toks after := by
  conv_lhs => rw [subFill]
  simp only [h1, if_true]
  split
  · rename_i p hp
    rw [h2] at hp
    cases hp
    rfl
  · rename_i hp
    rw [h2] at hp
    simp at hp

theorem subFill_noClose {toks : List Tok} {c : Char} {rest : Str}
    (h1 : fillQuote.isPrefixOf (c :: rest) = true)
    (h2 : findCloseQuote (rest.drop 5) = none) :
    subFill toks (c :: rest) = c :: subFill toks rest := by
  conv_lhs => rw [subFill]
  simp only [h1, if_true]
  split
  · rename_i p hp
    rw [h2] at hp
    simp at hp
  · rfl

theorem subFill_neg {toks : List Tok} {c : Char} {rest : Str}
    (h1 : fillQuote.isPrefixOf (c :: rest) = false) :
    subFill toks (c :: rest) = c :: subFill toks rest := by
  conv_lhs => rw [subFill]
  simp only [h1, Bool.false_eq_true, if_false]

theorem fillValues_match {c : Char} {rest inner after : Str}
    (h1 : fillQuote.isPrefixOf (c :: rest) = true)
    (h2 : findCloseQuote (rest.drop 5) = some (inner, after)) :
    fillValues (c :: rest) = inner :: fillValues after := by
  conv_lhs => rw [fillValues]
  simp only [h1, if_true]
  split
  · rename_i p hp
    rw [h2] at hp
    cases hp
    rfl
  · rename_i hp
    rw [h2] at hp
    simp at hp

theorem fillValues_noClose {c : Char} {rest : Str}
    (h1 : fillQuote.isPrefixOf (c :: rest) = true)
    (h2 : findCloseQuote (rest.drop 5) = none) :
    fillValues (c :: rest) = fillValues rest := by
  conv_lhs => rw [fillValues]
  simp only [h1, if_true]
  split
  · rename_i p hp
    rw [h2] at hp
    simp at hp
  · rfl

theorem fillValues_neg {c : Char} {rest : Str}
    (h1 : fillQuote.isPrefixOf (c :: rest) = false) :
    fillValues (c :: rest) = fillValues rest := by
  conv_lhs => rw [fillValues]
  simp only [h1, Bool.false_eq_true, if_false]

theorem replaceSvg_pos {repl : Str} {c : Char} {rest : Str}
    (h1 : svgTag.isPrefixOf (c :: rest) = true) :
    replaceSvg repl (c :: rest) = repl ++ replaceSvg repl (rest.drop 3) := by
  conv_lhs => rw [replaceSvg]
  simp only [h1, if_true]

theorem replaceSvg_neg {repl : Str} {c : Char} {rest : Str}
    (h1 : svgTag.isPrefixOf (c :: rest) = false) :
    replaceSvg repl (c :: rest) = c :: replaceSvg repl rest := by
  conv_lhs => rw [replaceSvg]
  simp only [h1, Bool.false_eq_true, if_false]

theorem countSvg_pos {c : Char} {rest : Str}
    (h1 : svgTag.isPrefixOf (c :: rest) = true) :
    countSvg (c :: rest) = 1 + countSvg (rest.drop 3) := by
  conv_lhs => rw [countSvg]
  simp only [h1, if_true]

theorem countSvg_neg {c : Char} {rest : Str}
    (h1 : svgTag.isPrefixOf (c :: rest) = false) :
    countSvg (c :: rest) = countSvg rest := by
  conv_lhs => rw [countSvg]
  simp only [h1, Bool.false_eq_true, if_false]

theorem hasFillMatch_cons {c : Char} {rest : Str} :
    hasFillMatch (c :: rest) =
      ((fillQuote.isPrefixOf (c :: rest) && (findCloseQuote (rest.drop 5)).isSome)
        || hasFillMatch rest) := by
  rw [hasFillMatch]

/- ------------------------------------------------------------------ -/
/- Structure of subFill and replaceSvg outputs.                        -/
/- ------------------------------------------------------------------ -/

theorem subFill_nil {toks : List Tok} : subFill toks [] = [] := by
  rw [subFill]

theorem fillValues_nil : fillValues [] = [] := by
  rw [fillValues]

theorem replaceSvg_nil {repl : Str} : replaceSvg repl [] = [] := by
  rw [replaceSvg]

theorem isPrefixOf_cons_head {a c : Char} {qt r : Str}
    (h : (a :: qt).isPrefixOf (c :: r) = true) :
    a = c ∧ qt.isPrefixOf r = true := by
  simpa [List.isPrefixOf] using h

theorem isPrefixOf_cons_intro {a c : Char} {qt r : Str} (h1 : a = c)
    (h2 : qt.isPrefixOf r = true) : (a :: qt).isPrefixOf (c :: r) = true := by
  simp [List.isPrefixOf, h1, h2]

theorem fillQuote_not_pre {c : Char} {r : Str} (h : ¬ c = 'f') :
    fillQuote.isPrefixOf (c :: r) = false := by
  rw [Bool.eq_false_iff]
  intro hcon
  exact h (isPrefixOf_cons_head (by
    rw [show fillQuote = 'f' :: str "ill=\"" from rfl] at hcon
    exact hcon)).1.symm

theorem svgTag_not_pre {c : Char} {r : Str} (h : ¬ c = '<') :
    svgTag.isPrefixOf (c :: r) = false := by
  rw [Bool.eq_false_iff]
  intro hcon
  exact h (isPrefixOf_cons_head (by
    rw [show svgTag = '<' :: str "svg" from rfl] at hcon
    exact hcon)).1.symm

theorem subFill_quoteFree {toks : List Tok} {z : Str} (h : '"' ∉ z) :
    subFill toks z = z := by
  induction z with
  | nil => exact subFill_nil
  | cons c rest ih =>
    have hp : fillQuote.isPrefixOf (c :: rest) = false := by
      rw [Bool.eq_false_iff]
      intro hcon
      exact h (mem_of_isPrefixOf hcon '"' (by decide))
    rw [subFill_neg hp, ih (fun hm => h (List.mem_cons_of_mem _ hm))]

theorem fillValues_quoteFree {z : Str} (h : '"' ∉ z) : fillValues z = [] := by
  induction z with
  | nil => exact fillValues_nil
  | cons c rest ih =>
    have hp : fillQuote.isPrefixOf (c :: rest) = false := by
      rw [Bool.eq_false_iff]
      intro hcon
      exact h (mem_of_isPrefixOf hcon '"' (by decide))
    rw [fillValues_neg hp, ih (fun hm => h (List.mem_cons_of_mem _ hm))]

theorem fillQuote_pre_decomp {c : Char} {rest : Str}
    (h : fillQuote.isPrefixOf (c :: rest) = true) :
    c = 'f' ∧ rest = 'i' :: 'l' :: 'l' :: '=' :: '"' :: rest.drop 5 := by
  obtain ⟨t, ht⟩ := exists_of_isPrefixOf h
  rw [show fillQuote = 'f' :: 'i' :: 'l' :: 'l' :: '=' :: '"' ::[] from rfl] at ht
  simp only [List.cons_append, List.nil_append] at ht
  rw [List.cons_eq_cons] at ht
  obtain ⟨hc, hrest⟩ := ht
  refine ⟨hc, ?_⟩
  rw [hrest]
  simp

theorem svgTag_pre_decomp {c : Char} {rest : Str}
    (h : svgTag.isPrefixOf (c :: rest) = true) :
    c = '<' ∧ rest = 's' :: 'v' :: 'g' :: rest.drop 3 := by
  obtain ⟨t, ht⟩ := exists_of_isPrefixOf h
  rw [show svgTag = '<' :: 's' :: 'v' :: 'g' ::[] from rfl] at ht
  simp only [List.cons_append, List.nil_append] at ht
  rw [List.cons_eq_cons] at ht
  obtain ⟨hc, hrest⟩ := ht
  refine ⟨hc, ?_⟩
  rw [hrest]
  simp

theorem mkTemplate_shape (color X : Str) :
    mkTemplate color ++ X = 'f' :: ('i' :: 'l' :: 'l' :: '=' :: '"' ::(color ++ '"' :: X)) := by
  rw [mkTemplate, fillQuote]
  simp [str]

theorem subFillC_block {color X : Str} (hq : '"' ∉ color) :
    subFillC color (mkTemplate color ++ X) = mkTemplate color ++ subFillC color X := by
  rw [subFillC, mkTemplate_shape]
  have h1 : fillQuote.isPrefixOf
      ('f' :: ('i' :: 'l' :: 'l' :: '=' :: '"' ::(color ++ '"' :: X))) = true := by
    rw [show ('f' : Char) :: ('i' :: 'l' :: 'l' :: '=' :: '"' ::(color ++ '"' :: X)) =
        fillQuote ++ (color ++ '"' :: X) from by rw [fillQuote]; simp [str]]
    exact isPrefixOf_append_self _ _
  have h2 : findCloseQuote (('i' :: 'l' :: 'l' :: '=' :: '"' ::(color ++ '"' :: X)).drop 5) =
      some (color, X) := by
    simp only [List.drop_succ_cons, List.drop_zero]
    exact findCloseQuote_append hq
  rw [subFill_match h1 h2, renderToks_litToks]

theorem fillValues_block {color X : Str} (hq : '"' ∉ color) :
    fillValues (mkTemplate color ++ X) = color :: fillValues X := by
  rw [mkTemplate_shape]
  have h1 : fillQuote.isPrefixOf
      ('f' :: ('i' :: 'l' :: 'l' :: '=' :: '"' ::(color ++ '"' :: X))) = true := by
    rw [show ('f' : Char) :: ('i' :: 'l' :: 'l' :: '=' :: '"' ::(color ++ '"' :: X)) =
        fillQuote ++ (color ++ '"' :: X) from by rw [fillQuote]; simp [str]]
    exact isPrefixOf_append_self _ _
  have h2 : findCloseQuote (('i' :: 'l' :: 'l' :: '=' :: '"' ::(color ++ '"' :: X)).drop 5) =
      some (color, X) := by
    simp only [List.drop_succ_cons, List.drop_zero]
    exact findCloseQuote_append hq
  rw [fillValues_match h1 h2]

theorem insRepl_shape (color Y : Str) :
    insRepl color ++ Y = '<' :: 's' :: 'v' :: 'g' :: ' ' :: (mkTemplate color ++ Y) := by
  rw [insRepl, mkTemplate, fillQuote]
  simp [str]

theorem subFillC_insBlock {color Y : Str} (hq : '"' ∉ color) :
    subFillC color (insRepl color ++ Y) = insRepl color ++ subFillC color Y := by
  rw [insRepl_shape, subFillC]
  rw [subFill_neg (fillQuote_not_pre (by decide))]
  rw [subFill_neg (fillQuote_not_pre (by decide))]
  rw [subFill_neg (fillQuote_not_pre (by decide))]
  rw [subFill_neg (fillQuote_not_pre (by decide))]
  rw [subFill_neg (fillQuote_not_pre (by decide))]
  rw [show subFill (litToks (mkTemplate color)) (mkTemplate color ++ Y) =
      subFillC color (mkTemplate color ++ Y) from rfl]
  rw [subFillC_block hq, insRepl_shape]
  rfl

theorem fillValues_insBlock {color Y : Str} (hq : '"' ∉ color) :
    fillValues (insRepl color ++ Y) = color :: fillValues Y := by
  rw [insRepl_shape]
  rw [fillValues_neg (fillQuote_not_pre (by decide))]
  rw [fillValues_neg (fillQuote_not_pre (by decide))]
  rw [fillValues_neg (fillQuote_not_pre (by decide))]
  rw [fillValues_neg (fillQuote_not_pre (by decide))]
  rw [fillValues_neg (fillQuote_not_pre (by decide))]
  rw [fillValues_block hq]

/- ------------------------------------------------------------------ -/
/- Fixpoint and prefix-preservation lemmas for the substitution scan.  -/
/- ------------------------------------------------------------------ -/

theorem subFill_tailFill {toks : List Tok} {rest : Str}
    (hrest : rest = 'i' :: 'l' :: 'l' :: '=' :: '"' :: rest.drop 5)
    (hz : '"' ∉ rest.drop 5) :
    subFill toks rest = rest := by
  conv_lhs => rw [hrest]
  rw [subFill_neg (fillQuote_not_pre (by decide))]
  rw [subFill_neg (fillQuote_not_pre (by decide))]
  rw [subFill_neg (fillQuote_not_pre (by decide))]
  rw [subFill_neg (fillQuote_not_pre (by decide))]
  rw [subFill_neg (fillQuote_not_pre (by decide))]
  rw [subFill_quoteFree hz]
  exact hrest.symm

theorem fillValues_tailFill {rest : Str}
    (hrest : rest = 'i' :: 'l' :: 'l' :: '=' :: '"' :: rest.drop 5)
    (hz : '"' ∉ rest.drop 5) :
    fillValues rest = [] := by
  conv_lhs => rw [hrest]
  rw [fillValues_neg (fillQuote_not_pre (by decide))]
  rw [fillValues_neg (fillQuote_not_pre (by decide))]
  rw [fillValues_neg (fillQuote_not_pre (by decide))]
  rw [fillValues_neg (fillQuote_not_pre (by decide))]
  rw [fillValues_neg (fillQuote_not_pre (by decide))]
  exact fillValues_quoteFree hz

theorem subFill_noClose_fix {toks : List Tok} {c : Char} {rest : Str}
    (h1 : fillQuote.isPrefixOf (c :: rest) = true)
    (h2 : findCloseQuote (rest.drop 5) = none) :
    subFill toks (c :: rest) = c :: rest := by
  obtain ⟨hc, hrest⟩ := fillQuote_pre_decomp h1
  rw [subFill_noClose h1 h2,
    subFill_tailFill hrest (not_mem_of_findCloseQuote_none h2)]

theorem subFillC_match_eq {color : Str} {c : Char} {rest inner after : Str}
    (h1 : fillQuote.isPrefixOf (c :: rest) = true)
    (h2 : findCloseQuote (rest.drop 5) = some (inner, after)) :
    subFillC color (c :: rest) = mkTemplate color ++ subFillC color after := by
  rw [subFillC, subFill_match h1 h2, renderToks_litToks]

theorem subFillC_neg_eq {color : Str} {c : Char} {rest : Str}
    (h1 : fillQuote.isPrefixOf (c :: rest) = false) :
    subFillC color (c :: rest) = c :: subFillC color rest := by
  rw [subFillC, subFill_neg h1]

theorem subFillC_noClose_fix {color : Str} {c : Char} {rest : Str}
    (h1 : fillQuote.isPrefixOf (c :: rest) = true)
    (h2 : findCloseQuote (rest.drop 5) = none) :
    subFillC color (c :: rest) = c :: rest := by
  rw [subFillC]
  exact subFill_noClose_fix h1 h2

theorem isPrefixOf_subFillC {color : Str} :
    ∀ l q : Str, q ≠ [] → 'f' ∉ q →
      q.isPrefixOf (subFillC color l) = true → q.isPrefixOf l = true := by
  intro l
  induction l using subFill.induct (litToks (mkTemplate color)) with
  | case1 =>
    intro q hq0 hqf h
    rw [subFillC, subFill_nil] at h
    exact h
  | case2 c rest h1 p h2 ih =>
    intro q hq0 hqf h
    obtain ⟨inner, after⟩ := p
    rw [subFillC_match_eq h1 h2, mkTemplate_shape] at h
    cases q with
    | nil => exact absurd rfl hq0
    | cons qh qt =>
      have hf := (isPrefixOf_cons_head h).1
      subst hf
      exact absurd (List.mem_cons_self _ _) hqf
  | case3 c rest h1 h2 ih =>
    intro q hq0 hqf h
    rw [subFillC_noClose_fix h1 h2] at h
    exact h
  | case4 c rest hneg ih =>
    intro q hq0 hqf h
    have h1f : fillQuote.isPrefixOf (c :: rest) = false := by
      rw [Bool.eq_false_iff]; exact hneg
    rw [subFillC_neg_eq h1f] at h
    cases q with
    | nil => exact absurd rfl hq0
    | cons qh qt =>
      obtain ⟨hqc, hqt⟩ := isPrefixOf_cons_head h
      cases qt with
      | nil => exact isPrefixOf_cons_intro hqc (by simp [List.isPrefixOf])
      | cons a b =>
        have hqt2 := ih (a :: b) (by simp) (fun hm => hqf (List.mem_cons_of_mem _ hm)) hqt
        exact isPrefixOf_cons_intro hqc hqt2

theorem replaceSvg_pos_eq {color : Str} {c : Char} {rest : Str}
    (h1 : svgTag.isPrefixOf (c :: rest) = true) :
    replaceSvg (insRepl color) (c :: rest) =
      insRepl color ++ replaceSvg (insRepl color) (rest.drop 3) :=
  replaceSvg_pos h1

theorem isPrefixOf_replaceSvg {color : Str} :
    ∀ l q : Str, q ≠ [] → '<' ∉ q →
      q.isPrefixOf (replaceSvg (insRepl color) l) = true → q.isPrefixOf l = true := by
  intro l
  induction l using replaceSvg.induct (insRepl color) with
  | case1 =>
    intro q hq0 hql h
    rw [replaceSvg_nil] at h
    exact h
  | case2 c rest h1 ih =>
    intro q hq0 hql h
    rw [replaceSvg_pos h1, insRepl_shape] at h
    cases q with
    | nil => exact absurd rfl hq0
    | cons qh qt =>
      have hf := (isPrefixOf_cons_head h).1
      subst hf
      exact absurd (List.mem_cons_self _ _) hql
  | case3 c rest hneg ih =>
    intro q hq0 hql h
    have h1f : svgTag.isPrefixOf (c :: rest) = false := by
      rw [Bool.eq_false_iff]; exact hneg
    rw [replaceSvg_neg h1f] at h
    cases q with
    | nil => exact absurd rfl hq0
    | cons qh qt =>
      obtain ⟨hqc, hqt⟩ := isPrefixOf_cons_head h
      cases qt with
      | nil => exact isPrefixOf_cons_intro hqc (by simp [List.isPrefixOf])
      | cons a b =>
        have hqt2 := ih (a :: b) (by simp) (fun hm => hql (List.mem_cons_of_mem _ hm)) hqt
        exact isPrefixOf_cons_intro hqc hqt2

theorem fillQuote_not_pre_subFillC {color : Str} {c : Char} {rest : Str}
    (h1 : fillQuote.isPrefixOf (c :: rest) = false) :
    fillQuote.isPrefixOf (c :: subFillC color rest) = false := by
  rw [Bool.eq_false_iff]
  intro hcon
  rw [show fillQuote = 'f' :: str "ill=\"" from rfl] at hcon
  obtain ⟨hc, ht⟩ := isPrefixOf_cons_head hcon
  have ht2 := isPrefixOf_subFillC rest (str "ill=\"") (by decide) (by decide) ht
  have : fillQuote.isPrefixOf (c :: rest) = true := by
    rw [show fillQuote = 'f' :: str "ill=\"" from rfl]
    exact isPrefixOf_cons_intro hc ht2
  rw [h1] at this
  simp at this

theorem subFillC_idem {color : Str} (hq : '"' ∉ color) :
    ∀ l, subFillC color (subFillC color l) = subFillC color l := by
  intro l
  induction l using subFill.induct (litToks (mkTemplate color)) with
  | case1 => simp only [subFillC, subFill_nil]
  | case2 c rest h1 p h2 ih =>
    obtain ⟨inner, after⟩ := p
    rw [subFillC_match_eq h1 h2, subFillC_block hq, ih]
  | case3 c rest h1 h2 ih =>
    have hfix : subFillC color (c :: rest) = c :: rest := subFillC_noClose_fix h1 h2
    rw [hfix, hfix]
  | case4 c rest hneg ih =>
    have h1f : fillQuote.isPrefixOf (c :: rest) = false := by
      rw [Bool.eq_false_iff]; exact hneg
    rw [subFillC_neg_eq h1f, subFillC_neg_eq (fillQuote_not_pre_subFillC h1f), ih]

theorem subFillC_insert_fix {color : Str} (hq : '"' ∉ color) :
    ∀ l, containsSub fillEq l = false →
      subFillC color (replaceSvg (insRepl color) l) = replaceSvg (insRepl color) l := by
  intro l
  induction l using replaceSvg.induct (insRepl color) with
  | case1 =>
    intro hnf
    rw [replaceSvg_nil]
    simp only [subFillC, subFill_nil]
  | case2 c rest h1 ih =>
    intro hnf
    have hrec : containsSub fillEq (rest.drop 3) = false := by
      rw [Bool.eq_false_iff]
      intro hcon
      have : containsSub fillEq (c :: rest) = true :=
        containsSub_cons (containsSub_drop (k := 3) hcon)
      rw [hnf] at this; simp at this
    rw [replaceSvg_pos h1, subFillC_insBlock hq, ih hrec]
  | case3 c rest hneg ih =>
    intro hnf
    have h1f : svgTag.isPrefixOf (c :: rest) = false := by
      rw [Bool.eq_false_iff]; exact hneg
    rw [replaceSvg_neg h1f]
    have hnott : fillQuote.isPrefixOf (c :: replaceSvg (insRepl color) rest) = false := by
      rw [Bool.eq_false_iff]
      intro hcon
      rw [show fillQuote = 'f' :: str "ill=\"" from rfl] at hcon
      obtain ⟨hc, ht⟩ := isPrefixOf_cons_head hcon
      have ht2 := isPrefixOf_replaceSvg rest (str "ill=\"") (by decide) (by decide) ht
      have hpre : fillQuote.isPrefixOf (c :: rest) = true := by
        rw [show fillQuote = 'f' :: str "ill=\"" from rfl]
        exact isPrefixOf_cons_intro hc ht2
      have : containsSub fillEq (c :: rest) = true :=
        containsSub_of_isPrefixOf (isPrefixOf_trans (by decide) hpre)
      rw [hnf] at this; simp at this
    rw [subFillC_neg_eq hnott, ih (not_containsSub_tail hnf)]

theorem fillValues_subFillC {color : Str} (hq : '"' ∉ color) :
    ∀ l, fillValues (subFillC color l) = (fillValues l).map (fun _ => color) := by
  intro l
  induction l using subFill.induct (litToks (mkTemplate color)) with
  | case1 => simp only [subFillC, subFill_nil, fillValues_nil, List.map_nil]
  | case2 c rest h1 p h2 ih =>
    obtain ⟨inner, after⟩ := p
    rw [subFillC_match_eq h1 h2, fillValues_block hq, fillValues_match h1 h2, ih]
    simp
  | case3 c rest h1 h2 ih =>
    obtain ⟨hc, hrest⟩ := fillQuote_pre_decomp h1
    have hz := not_mem_of_findCloseQuote_none h2
    rw [subFillC_noClose_fix h1 h2, fillValues_noClose h1 h2,
      fillValues_tailFill hrest hz]
    exact (List.map_nil).symm
  | case4 c rest hneg ih =>
    have h1f : fillQuote.isPrefixOf (c :: rest) = false := by
      rw [Bool.eq_false_iff]; exact hneg
    rw [subFillC_neg_eq h1f, fillValues_neg (fillQuote_not_pre_subFillC h1f),
      fillValues_neg h1f, ih]

theorem countSvg_replicate {color : Str} (hq : '"' ∉ color) :
    ∀ l, containsSub fillEq l = false →
      fillValues (replaceSvg (insRepl color) l) = List.replicate (countSvg l) color := by
  intro l
  induction l using replaceSvg.induct (insRepl color) with
  | case1 =>
    intro hnf
    rw [replaceSvg_nil, fillValues_nil]
    rw [show countSvg [] = 0 from by rw [countSvg]]
    exact List.replicate_zero.symm
  | case2 c rest h1 ih =>
    intro hnf
    have hrec : containsSub fillEq (rest.drop 3) = false := by
      rw [Bool.eq_false_iff]
      intro hcon
      have : containsSub fillEq (c :: rest) = true :=
        containsSub_cons (containsSub_drop (k := 3) hcon)
      rw [hnf] at this; simp at this
    rw [replaceSvg_pos h1, fillValues_insBlock hq, ih hrec, countSvg_pos h1]
    rw [show 1 + countSvg (rest.drop 3) = countSvg (rest.drop 3) + 1 from by omega]
    rw [List.replicate_succ]
  | case3 c rest hneg ih =>
    intro hnf
    have h1f : svgTag.isPrefixOf (c :: rest) = false := by
      rw [Bool.eq_false_iff]; exact hneg
    rw [replaceSvg_neg h1f, countSvg_neg h1f]
    have hnott : fillQuote.isPrefixOf (c :: replaceSvg (insRepl color) rest) = false := by
      rw [Bool.eq_false_iff]
      intro hcon
      rw [show fillQuote = 'f' :: str "ill=\"" from rfl] at hcon
      obtain ⟨hc, ht⟩ := isPrefixOf_cons_head hcon
      have ht2 := isPrefixOf_replaceSvg rest (str "ill=\"") (by decide) (by decide) ht
      have hpre : fillQuote.isPrefixOf (c :: rest) = true := by
        rw [show fillQuote = 'f' :: str "ill=\"" from rfl]
        exact isPrefixOf_cons_intro hc ht2
      have : containsSub fillEq (c :: rest) = true :=
        containsSub_of_isPrefixOf (isPrefixOf_trans (by decide) hpre)
      rw [hnf] at this; simp at this
    rw [fillValues_neg hnott, ih (not_containsSub_tail hnf)]

theorem containsSub_fillEq_of_hasFillMatch :
    ∀ l : Str, hasFillMatch l = true → containsSub fillEq l = true := by
  intro l
  induction l with
  | nil => intro h; rw [hasFillMatch] at h; simp at h
  | cons c rest ih =>
    intro h
    rw [hasFillMatch_cons, Bool.or_eq_true_iff] at h
    rcases h with h | h
    · rw [Bool.and_eq_true] at h
      exact containsSub_of_isPrefixOf (isPrefixOf_trans (by decide) h.1)
    · exact containsSub_cons (ih h)

theorem replaceSvg_contains_svgTag {color : Str} :
    ∀ l, containsSub svgTag l = true →
      containsSub svgTag (replaceSvg (insRepl color) l) = true := by
  intro l
  induction l using replaceSvg.induct (insRepl color) with
  | case1 => intro h; rw [containsSub] at h; simp [svgTag, str] at h
  | case2 c rest h1 ih =>
    intro h
    rw [replaceSvg_pos h1]
    apply containsSub_of_isPrefixOf
    rw [show insRepl color ++ replaceSvg (insRepl color) (rest.drop 3) =
        svgTag ++ ((' ' :: mkTemplate color) ++ replaceSvg (insRepl color) (rest.drop 3))
      from by rw [insRepl_shape, show svgTag = '<' :: 's' :: 'v' :: 'g' ::[] from rfl]; simp]
    exact isPrefixOf_append_self _ _
  | case3 c rest hneg ih =>
    intro h
    have h1f : svgTag.isPrefixOf (c :: rest) = false := by
      rw [Bool.eq_false_iff]; exact hneg
    rw [replaceSvg_neg h1f]
    rw [containsSub, h1f] at h
    simp only [Bool.false_or] at h
    exact containsSub_cons (ih h)

theorem fillEq_pre_mkTemplate (color X : Str) :
    fillEq.isPrefixOf (mkTemplate color ++ X) = true := by
  rw [mkTemplate]
  rw [show fillQuote ++ color ++ str "\"" ++ X = fillQuote ++ (color ++ str "\"" ++ X)
    from by simp]
  exact isPrefixOf_trans (by decide) (isPrefixOf_append_self _ _)

theorem replaceSvg_contains_fillEq {color : Str} :
    ∀ l, containsSub svgTag l = true →
      containsSub fillEq (replaceSvg (insRepl color) l) = true := by
  intro l
  induction l using replaceSvg.induct (insRepl color) with
  | case1 => intro h; rw [containsSub] at h; simp [svgTag, str] at h
  | case2 c rest h1 ih =>
    intro h
    rw [replaceSvg_pos h1, insRepl_shape]
    apply containsSub_cons
    apply containsSub_cons
    apply containsSub_cons
    apply containsSub_cons
    apply containsSub_cons
    exact containsSub_of_isPrefixOf (fillEq_pre_mkTemplate _ _)
  | case3 c rest hneg ih =>
    intro h
    have h1f : svgTag.isPrefixOf (c :: rest) = false := by
      rw [Bool.eq_false_iff]; exact hneg
    rw [replaceSvg_neg h1f]
    rw [containsSub, h1f] at h
    simp only [Bool.false_or] at h
    exact containsSub_cons (ih h)

theorem fillEq_pre_decomp {c : Char} {rest : Str}
    (h : fillEq.isPrefixOf (c :: rest) = true) :
    c = 'f' ∧ rest = 'i' :: 'l' :: 'l' :: '=' :: rest.drop 4 := by
  obtain ⟨t, ht⟩ := exists_of_isPrefixOf h
  rw [show fillEq = 'f' :: 'i' :: 'l' :: 'l' :: '=' ::[] from rfl] at ht
  simp only [List.cons_append, List.nil_append] at ht
  rw [List.cons_eq_cons] at ht
  obtain ⟨hc, hrest⟩ := ht
  refine ⟨hc, ?_⟩
  rw [hrest]
  simp

theorem subFillC_contains_fillEq {color : Str} :
    ∀ l, containsSub fillEq l = true →
      containsSub fillEq (subFillC color l) = true := by
  intro l
  induction l using subFill.induct (litToks (mkTemplate color)) with
  | case1 => intro h; rw [containsSub] at h; simp [fillEq, str] at h
  | case2 c rest h1 p h2 ih =>
    intro h
    obtain ⟨inner, after⟩ := p
    rw [subFillC_match_eq h1 h2]
    exact containsSub_of_isPrefixOf (fillEq_pre_mkTemplate _ _)
  | case3 c rest h1 h2 ih =>
    intro h
    rw [subFillC_noClose_fix h1 h2]
    exact h
  | case4 c rest hneg ih =>
    intro h
    have h1f : fillQuote.isPrefixOf (c :: rest) = false := by
      rw [Bool.eq_false_iff]; exact hneg
    rw [subFillC_neg_eq h1f]
    rw [containsSub, Bool.or_eq_true_iff] at h
    rcases h with h | h
    · obtain ⟨hc, hrest⟩ := fillEq_pre_decomp h
      subst hc
      apply containsSub_of_isPrefixOf
      rw [show subFillC color rest = 'i' :: 'l' :: 'l' :: '=' :: subFillC color (rest.drop 4) from by
        conv_lhs => rw [hrest]
        rw [subFillC_neg_eq (fillQuote_not_pre (by decide))]
        rw [subFillC_neg_eq (fillQuote_not_pre (by decide))]
        rw [subFillC_neg_eq (fillQuote_not_pre (by decide))]
        rw [subFillC_neg_eq (fillQuote_not_pre (by decide))]]
      rw [show ('f' : Char):: 'i' :: 'l' :: 'l' :: '=' :: subFillC color (rest.drop 4) =
          fillEq ++ subFillC color (rest.drop 4) from by
        rw [show fillEq = 'f' :: 'i' :: 'l' :: 'l' :: '=' ::[] from rfl]; simp]
      exact isPrefixOf_append_self _ _
    · exact containsSub_cons (ih h)

theorem compileTemplate_color {color : Str} (hb : '\\' ∉ color) :
    compileTemplate (mkTemplate color) = some (litToks (mkTemplate color)) := by
  apply compileTemplate_lit
  intro hm
  rw [mkTemplate] at hm
  rcases List.mem_append.mp hm with hm2 | hm2
  · rcases List.mem_append.mp hm2 with hm3 | hm3
    · exact absurd hm3 (by decide)
    · exact hb hm3
  · exact absurd hm2 (by decide)

/- ------------------------------------------------------------------ -/
/- Branch characterizations of modifyContent.                          -/
/- ------------------------------------------------------------------ -/

theorem modifyContent_insert {s color : Str} (hsvg : containsSub svgTag s = true)
    (hnf : containsSub fillEq s = false) :
    modifyContent s color = some (replaceSvg (insRepl color) s) := by
  rw [modifyContent, if_pos hsvg, if_pos hnf]

theorem modifyContent_subst {s color : Str} (hsvg : containsSub svgTag s = true)
    (hf : containsSub fillEq s = true) (hb : '\\' ∉ color) :
    modifyContent s color = some (subFillC color s) := by
  rw [modifyContent, if_pos hsvg, if_neg (by rw [hf]; simp), compileTemplate_color hb]
  rfl

theorem modifyContent_noSvg {s color : Str} (hsvg : containsSub svgTag s = false) :
    modifyContent s color = none := by
  rw [modifyContent, if_neg (by rw [hsvg]; simp)]

theorem compileTemplate_nil : compileTemplate [] = some [] := by
  rw [compileTemplate]

theorem compileTemplate_cons_lit {c : Char} {r : Str} (hc : ¬ c = '\\') :
    compileTemplate (c :: r) = (compileTemplate r).map (fun ts => Tok.lit c :: ts) := by
  conv_lhs => rw [compileTemplate]
  rw [if_neg hc]

theorem compileTemplate_cons_esc {r : Str} {q : List Tok × Str}
    (hp : parseEscape r = some q) :
    compileTemplate ('\\' :: r) =
      (compileTemplate q.2).map (fun ts => q.1 ++ ts) := by
  conv_lhs => rw [compileTemplate]
  rw [if_pos rfl]
  split
  · rename_i q2 hq2
    rw [hp] at hq2
    cases hq2
    rfl
  · rename_i hq2
    rw [hp] at hq2
    simp at hq2

theorem modifyContent_second {s s2 color : Str} (hq : '"' ∉ color) (hb : '\\' ∉ color)
    (h : modifyContent s color = some s2) :
    modifyContent s2 color = some s2 ∨ modifyContent s2 color = none := by
  by_cases hsvg : containsSub svgTag s = true
  · by_cases hnf : containsSub fillEq s = false
    · rw [modifyContent_insert hsvg hnf] at h
      cases h
      left
      rw [modifyContent_subst (replaceSvg_contains_svgTag s hsvg)
        (replaceSvg_contains_fillEq s hsvg) hb, subFillC_insert_fix hq s hnf]
    · have hf : containsSub fillEq s = true := by
        cases hcase : containsSub fillEq s with
        | false => exact absurd hcase hnf
        | true => rfl
      rw [modifyContent_subst hsvg hf hb] at h
      cases h
      by_cases hsvg2 : containsSub svgTag (subFillC color s) = true
      · left
        rw [modifyContent_subst hsvg2 (subFillC_contains_fillEq s hf) hb,
          subFillC_idem hq s]
      · right
        refine modifyContent_noSvg ?_
        cases hcase : containsSub svgTag (subFillC color s) with
        | false => rfl
        | true => exact absurd hcase hsvg2
  · have hsvgf : containsSub svgTag s = false := by
      cases hcase : containsSub svgTag s with
      | false => rfl
      | true => exact absurd hcase hsvg
    rw [modifyContent_noSvg hsvgf] at h
    simp at h

theorem modify_svg_color_ok {s color : Str} :
    modify_svg_color (ReadResult.ok s) color =
      match modifyContent s color with
      | some s2 => (ReadResult.ok s2, true)
      | none => (ReadResult.ok s, false) := rfl

theorem modify_svg_color_idem (r : ReadResult) (color : Str)
    (hq : '"' ∉ color) (hb : '\\' ∉ color) :
    (modify_svg_color (modify_svg_color r color).1 color).1 =
      (modify_svg_color r color).1 := by
  cases r with
  | absent => rfl
  | ioError => rfl
  | ok s =>
    rw [modify_svg_color_ok]
    cases hm : modifyContent s color with
    | none =>
      simp only []
      rw [modify_svg_color_ok, hm]
    | some s2 =>
      simp only []
      rw [modify_svg_color_ok]
      rcases modifyContent_second hq hb hm with h2 | h2
      · rw [h2]
      · rw [h2]

theorem pathJoin_std {a b : Str} (hbs : b.head? ≠ some '/')
    (ha0 : a ≠ []) (has : a.getLast? ≠ some '/') : pathJoin a b = a ++ '/' :: b := by
  rw [pathJoin, if_neg hbs, if_neg ha0, if_neg has]

theorem imagesDirOf_eq {base : Str} :
    imagesDirOf base = pathJoin base (str "images") := rfl

theorem imagesDirOf_ne_nil {base : Str} : imagesDirOf base ≠ [] := by
  rw [imagesDirOf, pathJoin, if_neg (by decide : ¬ (str "images").head? = some '/')]
  by_cases hb : base = []
  · rw [if_pos hb]; decide
  · rw [if_neg hb]
    by_cases hl : base.getLast? = some '/'
    · rw [if_pos hl]; simp [str]
    · rw [if_neg hl]; simp

theorem imagesDirOf_getLast {base : Str} : (imagesDirOf base).getLast? = some 's' := by
  rw [imagesDirOf, pathJoin, if_neg (by decide : ¬ (str "images").head? = some '/')]
  by_cases hb : base = []
  · rw [if_pos hb]; decide
  · rw [if_neg hb]
    by_cases hl : base.getLast? = some '/'
    · rw [if_pos hl, List.getLast?_append_of_ne_nil _ (by simp [str] : str "images" ≠ [])]
      decide
    · rw [if_neg hl, List.getLast?_append_of_ne_nil _ (by simp : ('/' :: str "images") ≠ [])]
      decide

theorem iconsDirOf_eq {base : Str} :
    iconsDirOf base = imagesDirOf base ++ '/' :: str "icons" := by
  rw [iconsDirOf]
  exact pathJoin_std (by decide) imagesDirOf_ne_nil (by rw [imagesDirOf_getLast]; decide)

theorem iconsDirOf_ne_nil {base : Str} : iconsDirOf base ≠ [] := by
  rw [iconsDirOf_eq]
  simp

theorem iconsDirOf_getLast {base : Str} : (iconsDirOf base).getLast? = some 's' := by
  rw [iconsDirOf_eq, List.getLast?_append_of_ne_nil _ (by simp : ('/' :: str "icons") ≠ [])]
  decide

theorem fallbackPath_eq {base : Str} :
    fallbackPath base = imagesDirOf base ++ '/' :: str "icon.svg" := by
  rw [fallbackPath]
  exact pathJoin_std (by decide) imagesDirOf_ne_nil (by rw [imagesDirOf_getLast]; decide)

theorem iconFilePath_eq {base f : Str} (hfs : f.head? ≠ some '/') :
    iconFilePath base f = iconsDirOf base ++ '/' :: f := by
  rw [iconFilePath]
  exact pathJoin_std hfs iconsDirOf_ne_nil (by rw [iconsDirOf_getLast]; decide)

theorem fallback_ne_iconFilePath {base f : Str} (hfs : f.head? ≠ some '/') :
    fallbackPath base ≠ iconFilePath base f := by
  intro he
  rw [fallbackPath_eq, iconFilePath_eq hfs, iconsDirOf_eq, List.append_assoc] at he
  have h2 := List.append_cancel_left he
  simp [str] at h2

theorem iconFilePath_inj {base f g : Str} (hfs : f.head? ≠ some '/')
    (hgs : g.head? ≠ some '/') (he : iconFilePath base f = iconFilePath base g) :
    f = g := by
  rw [iconFilePath_eq hfs, iconFilePath_eq hgs] at he
  have h2 := List.append_cancel_left he
  simpa using h2

/- ------------------------------------------------------------------ -/
/- The bulk recoloring pass touches each listed file independently.    -/
/- ------------------------------------------------------------------ -/

theorem foldl_untouched {color base : Str} {p : Str} :
    ∀ (listing : List Str) (fs : FS),
      (∀ f ∈ listing, iconFilePath base f ≠ p) →
      (listing.foldl
        (fun acc f =>
          if svgSuffix f then modifyFileAt acc (iconFilePath base f) color else acc)
        fs) p = fs p := by
  intro listing
  induction listing with
  | nil => intro fs h; rfl
  | cons g rest ih =>
    intro fs h
    rw [List.foldl_cons]
    by_cases hs : svgSuffix g = true
    · rw [if_pos hs, ih _ (fun f hf => h f (List.mem_cons_of_mem _ hf))]
      rw [modifyFileAt, writeFS]
      rw [if_neg (fun e => (h g (List.mem_cons_self _ _)) e.symm)]
    · rw [if_neg hs]
      exact ih _ (fun f hf => h f (List.mem_cons_of_mem _ hf))

theorem foldl_hit {color base : Str} :
    ∀ (listing : List Str) (fs : FS) (f : Str), listing.Nodup → f ∈ listing →
      svgSuffix f = true →
      (∀ g ∈ listing, g ≠ f → iconFilePath base g ≠ iconFilePath base f) →
      (listing.foldl
        (fun acc g =>
          if svgSuffix g then modifyFileAt acc (iconFilePath base g) color else acc)
        fs) (iconFilePath base f) =
        (modify_svg_color (fs (iconFilePath base f)) color).1 := by
  intro listing
  induction listing with
  | nil => intro fs f _ hmem; simp at hmem
  | cons g rest ih =>
    intro fs f hnd hmem hsvg hinj
    rw [List.foldl_cons]
    rcases List.mem_cons.mp hmem with heq | hmem2
    · subst heq
      rw [if_pos hsvg]
      have hrest : ∀ x ∈ rest, iconFilePath base x ≠ iconFilePath base f := by
        intro x hx
        refine hinj x (List.mem_cons_of_mem _ hx) ?_
        intro he
        subst he
        exact (List.nodup_cons.mp hnd).1 hx
      rw [foldl_untouched rest _ hrest]
      rw [modifyFileAt, writeFS, if_pos rfl]
    · have hgne : g ≠ f := by
        intro e
        subst e
        exact (List.nodup_cons.mp hnd).1 hmem2
      have hinj2 : ∀ x ∈ rest, x ≠ f → iconFilePath base x ≠ iconFilePath base f :=
        fun x hx => hinj x (List.mem_cons_of_mem _ hx)
      by_cases hs : svgSuffix g = true
      · rw [if_pos hs]
        rw [ih _ f (List.nodup_cons.mp hnd).2 hmem2 hsvg hinj2]
        rw [modifyFileAt, writeFS]
        rw [if_neg (fun e => (hinj g (List.mem_cons_self _ _) hgne) e.symm)]
      · rw [if_neg hs]
        exact ih _ f (List.nodup_cons.mp hnd).2 hmem2 hsvg hinj2

theorem update_svg_colors_spec (color base : Str) (listing : List Str) (fs : FS)
    (hnd : listing.Nodup) (hok : ∀ g ∈ listing, g.head? ≠ some '/') :
    (∀ f ∈ listing, svgSuffix f = true →
       update_svg_colors color base listing fs (iconFilePath base f) =
         (modify_svg_color (fs (iconFilePath base f)) color).1)
    ∧ update_svg_colors color base listing fs (fallbackPath base) =
        (modify_svg_color (fs (fallbackPath base)) color).1 := by
  constructor
  · intro f hf hsvg
    rw [update_svg_colors]
    have hinj : ∀ g ∈ listing, g ≠ f → iconFilePath base g ≠ iconFilePath base f := by
      intro g hg hne he
      exact hne (iconFilePath_inj (hok g hg) (hok f hf) he)
    rw [foldl_hit listing _ f hnd hf hsvg hinj]
    rw [modifyFileAt, writeFS]
    rw [if_neg (fun e => (fallback_ne_iconFilePath (hok f hf)) e.symm)]
  · rw [update_svg_colors]
    have huntouched : ∀ f ∈ listing, iconFilePath base f ≠ fallbackPath base := by
      intro f hf he
      exact (fallback_ne_iconFilePath (hok f hf)) he.symm
    rw [foldl_untouched listing _ huntouched]
    rw [modifyFileAt, writeFS, if_pos rfl]

/- ------------------------------------------------------------------ -/
/- Ranked search lemmas.                                               -/
/- ------------------------------------------------------------------ -/

theorem tier_cases (q name : Str) :
    tier q name = 0 ∨ tier q name = 1 ∨ tier q name = 2 ∨ tier q name = 3 := by
  rw [tier]
  split_ifs <;> simp

theorem mem_sortByTier {q : Str} {l : List (Str × IconData)} {p : Str × IconData} :
    p ∈ sortByTier q l ↔ p ∈ l := by
  rw [sortByTier]
  simp only [List.mem_append, List.mem_filter]
  constructor
  · rintro (((⟨h, _⟩ | ⟨h, _⟩) | ⟨h, _⟩) | ⟨h, _⟩) <;> exact h
  · intro h
    rcases tier_cases q p.1 with ht | ht | ht | ht
    · exact Or.inl (Or.inl (Or.inl ⟨h, by simp [ht]⟩))
    · exact Or.inl (Or.inl (Or.inr ⟨h, by simp [ht]⟩))
    · exact Or.inl (Or.inr ⟨h, by simp [ht]⟩)
    · exact Or.inr ⟨h, by simp [ht]⟩

theorem bucket_tier {q : Str} {l : List (Str × IconData)} {i : Nat} {p : Str × IconData}
    (h : p ∈ l.filter (fun p => tier q p.1 == i)) : tier q p.1 = i := by
  have := (List.mem_filter.mp h).2
  simpa using this

theorem bucket_pairwise {q : Str} {l : List (Str × IconData)} {i : Nat} :
    (l.filter (fun p => tier q p.1 == i)).Pairwise
      (fun a b => tier q a.1 ≤ tier q b.1) := by
  apply List.pairwise_of_forall_mem_list
  intro a ha b hb
  rw [bucket_tier ha, bucket_tier hb]

theorem sortByTier_pairwise {q : Str} {l : List (Str × IconData)} :
    (sortByTier q l).Pairwise (fun a b => tier q a.1 ≤ tier q b.1) := by
  rw [sortByTier]
  rw [List.pairwise_append]
  refine ⟨?_, bucket_pairwise, ?_⟩
  · rw [List.pairwise_append]
    refine ⟨?_, bucket_pairwise, ?_⟩
    · rw [List.pairwise_append]
      refine ⟨bucket_pairwise, bucket_pairwise, ?_⟩
      · intro a ha b hb
        rw [bucket_tier ha, bucket_tier hb]
        omega
    · intro a ha b hb
      rcases List.mem_append.mp ha with ha2 | ha2 <;>
        [rw [bucket_tier ha2, bucket_tier hb]; rw [bucket_tier ha2, bucket_tier hb]] <;>
        omega
  · intro a ha b hb
    rcases List.mem_append.mp ha with ha2 | ha2
    · rcases List.mem_append.mp ha2 with ha3 | ha3 <;>
        [rw [bucket_tier ha3, bucket_tier hb]; rw [bucket_tier ha3, bucket_tier hb]] <;>
        omega
    · rw [bucket_tier ha2, bucket_tier hb]
      omega

theorem search_icons_pairwise (q : Str) (icons : List (Str × IconData)) :
    (search_icons q icons).Pairwise
      (fun a b => tier (lower q) a.1 ≤ tier (lower q) b.1) := by
  rw [search_icons]
  exact sortByTier_pairwise.sublist (List.take_sublist _ _)

theorem bucket_filter_ne {q : Str} {l : List (Str × IconData)} {i t : Nat} (h : i ≠ t) :
    (l.filter (fun p => tier q p.1 == i)).filter (fun p => tier q p.1 == t) = [] := by
  rw [List.filter_eq_nil_iff]
  intro a ha
  have hi := bucket_tier ha
  simp [hi, h]

theorem bucket_filter_self {q : Str} {l : List (Str × IconData)} {t : Nat} :
    (l.filter (fun p => tier q p.1 == t)).filter (fun p => tier q p.1 == t) =
      l.filter (fun p => tier q p.1 == t) := by
  rw [List.filter_eq_self]
  intro a ha
  simp [bucket_tier ha]

theorem sortByTier_filter_sub {q : Str} (l : List (Str × IconData)) (t : Nat) :
    List.Sublist ((sortByTier q l).filter (fun p => tier q p.1 == t)) l := by
  rw [sortByTier, List.filter_append, List.filter_append, List.filter_append]
  by_cases h0 : t = 0
  · subst h0
    rw [bucket_filter_self, bucket_filter_ne (by omega), bucket_filter_ne (by omega),
      bucket_filter_ne (by omega)]
    simp only [List.append_nil]
    exact List.filter_sublist l
  by_cases h1 : t = 1
  · subst h1
    rw [bucket_filter_self, bucket_filter_ne (by omega), bucket_filter_ne (by omega),
      bucket_filter_ne (by omega)]
    simp only [List.nil_append, List.append_nil]
    exact List.filter_sublist l
  by_cases h2 : t = 2
  · subst h2
    rw [bucket_filter_self, bucket_filter_ne (by omega), bucket_filter_ne (by omega),
      bucket_filter_ne (by omega)]
    simp only [List.nil_append, List.append_nil]
    exact List.filter_sublist l
  by_cases h3 : t = 3
  · subst h3
    rw [bucket_filter_self, bucket_filter_ne (by omega), bucket_filter_ne (by omega),
      bucket_filter_ne (by omega)]
    simp only [List.nil_append]
    exact List.filter_sublist l
  · rw [bucket_filter_ne (by omega), bucket_filter_ne (by omega),
      bucket_filter_ne (by omega), bucket_filter_ne (by omega)]
    simp only [List.append_nil]
    exact List.nil_sublist l

theorem search_icons_filter_sublist (q : Str) (icons : List (Str × IconData)) (t : Nat) :
    List.Sublist ((search_icons q icons).filter (fun p => tier (lower q) p.1 == t))
      icons := by
  rw [search_icons]
  have h1 := (List.take_sublist 10
    (sortByTier (lower q) (matched_icons (lower q) icons))).filter
    (fun p => tier (lower q) p.1 == t)
  refine h1.trans ?_
  refine (sortByTier_filter_sub _ t).trans ?_
  rw [matched_icons]
  exact List.filter_sublist icons

theorem search_icons_length (q : Str) (icons : List (Str × IconData)) :
    (search_icons q icons).length ≤ 10 := by
  rw [search_icons]
  exact List.length_take_le 10 _

theorem search_icons_isPrefix (q : Str) (icons : List (Str × IconData)) :
    List.IsPrefix (search_icons q icons)
      (sortByTier (lower q) (matched_icons (lower q) icons)) := by
  rw [search_icons]
  exact List.take_prefix 10 _

theorem mem_sortByTier_matched {q : Str} {icons : List (Str × IconData)}
    {p : Str × IconData} :
    p ∈ sortByTier q (matched_icons q icons) ↔
      p ∈ icons ∧ matchesQuery q p.1 p.2 = true := by
  rw [mem_sortByTier, matched_icons, List.mem_filter]

theorem search_icons_matches {q : Str} {icons : List (Str × IconData)}
    {p : Str × IconData} (h : p ∈ search_icons q icons) :
    matchesQuery (lower q) p.1 p.2 = true := by
  rw [search_icons] at h
  have h2 := List.take_subset 10 _ h
  exact (mem_sortByTier_matched.mp h2).2

theorem search_icons_empty {q : Str} {icons : List (Str × IconData)}
    (h : ∀ p ∈ icons, matchesQuery (lower q) p.1 p.2 = false) :
    search_icons q icons = [] := by
  rw [search_icons]
  have hm : matched_icons (lower q) icons = [] := by
    rw [matched_icons, List.filter_eq_nil_iff]
    intro a ha
    rw [h a ha]
    simp
  rw [hm, sortByTier]
  simp

/- ------------------------------------------------------------------ -/
/- Copy-content generator lemmas.                                      -/
/- ------------------------------------------------------------------ -/

theorem get_copy_content_html (n id uv st base : Str) (fs : FS) :
    get_copy_content (str "html") n id uv st base fs =
      htmlSnippet (style_short st) n := by
  rw [get_copy_content, if_pos rfl]

theorem get_copy_content_class (n id uv st base : Str) (fs : FS) :
    get_copy_content (str "class") n id uv st base fs =
      classSnippet (style_short st) n := by
  rw [get_copy_content, if_neg (by decide), if_pos rfl]

theorem get_copy_content_unicode_empty (n id st base : Str) (fs : FS) :
    get_copy_content (str "unicode") n id [] st base fs =
      classSnippet (style_short st) n := by
  rw [get_copy_content, if_neg (by decide), if_neg (by decide), if_pos rfl,
    if_neg (by simp)]

theorem get_copy_content_unrecognized (fmt n id uv st base : Str) (fs : FS)
    (h1 : fmt ≠ str "html") (h2 : fmt ≠ str "class") (h3 : fmt ≠ str "unicode")
    (h4 : fmt ≠ str "svg") :
    get_copy_content fmt n id uv st base fs = htmlSnippet (style_short st) n := by
  rw [get_copy_content, if_neg h1, if_neg h2, if_neg h3, if_neg h4]

theorem get_copy_content_svg_ok {n id uv st base s : Str} {fs : FS}
    (h : fs (svgAssetPath base id) = ReadResult.ok s) :
    get_copy_content (str "svg") n id uv st base fs = s := by
  rw [get_copy_content, if_neg (by decide), if_neg (by decide), if_neg (by decide),
    if_pos rfl, h]

theorem get_copy_content_svg_absent {n id uv st base : Str} {fs : FS}
    (h : fs (svgAssetPath base id) = ReadResult.absent) :
    get_copy_content (str "svg") n id uv st base fs =
      get_copy_content (str "html") n id uv st base fs := by
  rw [get_copy_content, if_neg (by decide), if_neg (by decide), if_neg (by decide),
    if_pos rfl, h, get_copy_content_html]

theorem get_copy_content_svg_ioError {n id uv st base : Str} {fs : FS}
    (h : fs (svgAssetPath base id) = ReadResult.ioError) :
    get_copy_content (str "svg") n id uv st base fs =
      get_copy_content (str "html") n id uv st base fs := by
  rw [get_copy_content, if_neg (by decide), if_neg (by decide), if_neg (by decide),
    if_pos rfl, h, get_copy_content_html]

theorem style_short_solid : style_short (str "solid") = 's' := by
  rw [style_short, if_pos rfl]

theorem style_short_regular : style_short (str "regular") = 'r' := by
  rw [style_short, if_neg (by decide), if_pos rfl]

theorem style_short_other {st : Str} (h1 : st ≠ str "solid") (h2 : st ≠ str "regular") :
    style_short st = 'b' := by
  rw [style_short, if_neg h1, if_neg h2]

/- ------------------------------------------------------------------ -/
/- Claim theorems.                                                     -/
/- ------------------------------------------------------------------ -/

/-- Claim C3: for every non-empty query and every catalog, the ranked result
sequence is ordered by ascending relevance tier, with ties between records of
the same tier broken by the catalog's insertion order (every equal-tier slice
of the result is a sublist of the catalog, hence in insertion order); and on
the catalog home/homepage/house with query "home" the result is exactly
[home, homepage, house] in that order. -/
theorem c3_tier_order :
    (∀ (q : Str) (icons : List (Str × IconData)), q ≠ [] →
      (search_icons q icons).Pairwise
        (fun a b => tier (lower q) a.1 ≤ tier (lower q) b.1) ∧
      (∀ t : Nat, List.Sublist
        ((search_icons q icons).filter (fun p => tier (lower q) p.1 == t)) icons))
    ∧ search_icons (str "home")
        [(str "home", ⟨[]⟩), (str "homepage", ⟨[]⟩), (str "house", ⟨[str "home-like"]⟩)] =
      [(str "home", ⟨[]⟩), (str "homepage", ⟨[]⟩), (str "house", ⟨[str "home-like"]⟩)] := by
  constructor
  · intro q icons _
    exact ⟨search_icons_pairwise q icons, fun t => search_icons_filter_sublist q icons t⟩
  · decide

/-- Claim C3 witness: the general part of c3_tier_order applied at a concrete
non-empty query and catalog. -/
theorem c3_witness :
    (search_icons (str "x") [(str "x", ⟨[]⟩)]).Pairwise
      (fun a b => tier (lower (str "x")) a.1 ≤ tier (lower (str "x")) b.1) :=
  (c3_tier_order.1 (str "x") [(str "x", ⟨[]⟩)] (by decide)).1

/-- Claim C4: for every query and catalog, the search returns at most 10
entries (the hard-coded limit of src/main.py line 121), the returned sequence
is a prefix of the fully ranked candidate sequence (truncation happens after
ranking), and the fully ranked sequence contains exactly the records of the
catalog matching the query, so ranking considers the whole candidate set. -/
theorem c4_limit (q : Str) (icons : List (Str × IconData)) :
    (search_icons q icons).length ≤ 10 ∧
    List.IsPrefix (search_icons q icons)
      (sortByTier (lower q) (matched_icons (lower q) icons)) ∧
    (∀ p : Str × IconData,
      p ∈ sortByTier (lower q) (matched_icons (lower q) icons) ↔
        p ∈ icons ∧ matchesQuery (lower q) p.1 p.2 = true) :=
  ⟨search_icons_length q icons, search_icons_isPrefix q icons,
    fun _ => mem_sortByTier_matched⟩

/-- Claim C5: every record returned by the search case-insensitively contains
the query in its name or in one of its search terms, and when no record of
the catalog matches, the result is the empty sequence rather than an error. -/
theorem c5_soundness (q : Str) (icons : List (Str × IconData)) :
    (∀ p ∈ search_icons q icons,
      containsSub (lower q) (lower p.1) = true ∨
        ∃ t ∈ p.2.search_terms, containsSub (lower q) (lower t) = true)
    ∧ ((∀ p ∈ icons, matchesQuery (lower q) p.1 p.2 = false) →
        search_icons q icons = []) := by
  constructor
  · intro p hp
    have h := search_icons_matches hp
    rw [matchesQuery, Bool.or_eq_true_iff] at h
    rcases h with h | h
    · exact Or.inl h
    · right
      rw [List.any_eq_true] at h
      obtain ⟨t, ht, h2⟩ := h
      exact ⟨t, ht, h2⟩
  · exact search_icons_empty

/-- Claim C5 witness: c5_soundness applied at a query matching nothing in a
concrete catalog yields the empty result. -/
theorem c5_witness :
    search_icons (str "zz") [(str "home", ⟨[]⟩)] = [] :=
  (c5_soundness (str "zz") [(str "home", ⟨[]⟩)]).2 (by decide)

/-- Claim C6: for the svg format, the generator returns the text of the asset
file at base_dir/images/icons/(icon_id).svg verbatim when it is readable, and
returns the html output of the same icon both when the file is absent and
when reading it raises (the exception is caught, never propagated: the
generator is a total function of the file-system state). -/
theorem c6_svg_fallback (fs : FS) (n id uv st base : Str) :
    (∀ s, fs (svgAssetPath base id) = ReadResult.ok s →
      get_copy_content (str "svg") n id uv st base fs = s)
    ∧ (fs (svgAssetPath base id) = ReadResult.absent →
      get_copy_content (str "svg") n id uv st base fs =
        get_copy_content (str "html") n id uv st base fs)
    ∧ (fs (svgAssetPath base id) = ReadResult.ioError →
      get_copy_content (str "svg") n id uv st base fs =
        get_copy_content (str "html") n id uv st base fs) :=
  ⟨fun _ h => get_copy_content_svg_ok h,
   fun h => get_copy_content_svg_absent h,
   fun h => get_copy_content_svg_ioError h⟩

/-- Claim C6 witness: c6_svg_fallback applied to a file system where every
read raises, at a concrete icon. -/
theorem c6_witness :
    get_copy_content (str "svg") (str "home") (str "home") [] (str "solid") (str "/r")
      (fun _ => ReadResult.ioError) =
    get_copy_content (str "html") (str "home") (str "home") [] (str "solid") (str "/r")
      (fun _ => ReadResult.ioError) :=
  (c6_svg_fallback (fun _ => ReadResult.ioError)
    (str "home") (str "home") [] (str "solid") (str "/r")).2.2 rfl

/-- Claim C7: recoloring a missing file reports failure without writing, and
recoloring a file whose text has no opening svg tag reports failure and
leaves the contents unchanged. -/
theorem c7_failures (color : Str) :
    modify_svg_color ReadResult.absent color = (ReadResult.absent, false)
    ∧ (∀ s, containsSub svgTag s = false →
        modify_svg_color (ReadResult.ok s) color = (ReadResult.ok s, false)) := by
  constructor
  · rfl
  · intro s h
    rw [modify_svg_color_ok, modifyContent_noSvg h]

/-- Claim C7 witness: c7_failures applied to a concrete non-SVG text. -/
theorem c7_witness :
    modify_svg_color (ReadResult.ok (str "plain text")) (str "#fff") =
      (ReadResult.ok (str "plain text"), false) :=
  (c7_failures (str "#fff")).2 (str "plain text") (by decide)

/-- Claim C8: the bulk pass recolors the fallback icon at images/icon.svg and
every listed file with a .svg suffix in the icons directory, each
independently of the others: the final contents of each such file equal the
result of one modify_svg_color call on its original contents, whatever the
other listed files contain (so one corrupted file cannot abort the pass),
and likewise for the fallback icon. -/
theorem c8_bulk (color base : Str) (listing : List Str) (fs : FS)
    (hnd : listing.Nodup) (hok : ∀ g ∈ listing, g.head? ≠ some '/') :
    (∀ f ∈ listing, svgSuffix f = true →
       update_svg_colors color base listing fs (iconFilePath base f) =
         (modify_svg_color (fs (iconFilePath base f)) color).1)
    ∧ update_svg_colors color base listing fs (fallbackPath base) =
        (modify_svg_color (fs (fallbackPath base)) color).1 :=
  update_svg_colors_spec color base listing fs hnd hok

/-- Claim C8 witness: c8_bulk applied to a two-file listing in which the
other file is corrupted (its text has no svg tag); the valid file is still
recolored. -/
theorem c8_witness :
    update_svg_colors (str "#0cf") (str "/e") [str "bad.svg", str "good.svg"]
      (fun p => if p = iconFilePath (str "/e") (str "good.svg")
        then ReadResult.ok (str "<svg/>") else ReadResult.ok (str "no tag"))
      (iconFilePath (str "/e") (str "good.svg")) =
      ReadResult.ok (str "<svg fill=\"#0cf\"/>") := by
  have h := (c8_bulk (str "#0cf") (str "/e") [str "bad.svg", str "good.svg"]
    (fun p => if p = iconFilePath (str "/e") (str "good.svg")
      then ReadResult.ok (str "<svg/>") else ReadResult.ok (str "no tag"))
    (by decide) (by decide)).1 (str "good.svg") (by decide) (by decide)
  rw [h, if_pos rfl]
  rw [modify_svg_color_ok, modifyContent_insert (by decide) (by decide)]
  simp only []
  rw [show replaceSvg (insRepl (str "#0cf")) (str "<svg/>") = str "<svg fill=\"#0cf\"/>"
    from by simp [replaceSvg, insRepl, svgTag, str, List.isPrefixOf]]

/-- Claim C9: the style is normalized to a one-character code (solid to s,
regular to r, anything else to b); the html format yields the i-tag snippet,
the class format the bare class string, the unicode format with an empty
unicode value the same string as the class format, and any unrecognized
format kind the html output; in particular the two concrete outputs of the
specification hold. -/
theorem c9_formats :
    (style_short (str "solid") = 's' ∧ style_short (str "regular") = 'r' ∧
      (∀ st : Str, st ≠ str "solid" → st ≠ str "regular" → style_short st = 'b'))
    ∧ (∀ (n id uv st base : Str) (fs : FS),
        get_copy_content (str "html") n id uv st base fs =
          str "<i class=\"fa" ++ style_short st :: str " fa-" ++ n ++ str "\"></i>")
    ∧ (∀ (n id uv st base : Str) (fs : FS),
        get_copy_content (str "class") n id uv st base fs =
          str "fa" ++ style_short st :: str " fa-" ++ n)
    ∧ (∀ (n id st base : Str) (fs : FS),
        get_copy_content (str "unicode") n id [] st base fs =
          get_copy_content (str "class") n id [] st base fs)
    ∧ (∀ (fmt n id uv st base : Str) (fs : FS), fmt ≠ str "html" → fmt ≠ str "class" →
        fmt ≠ str "unicode" → fmt ≠ str "svg" →
        get_copy_content fmt n id uv st base fs =
          get_copy_content (str "html") n id uv st base fs)
    ∧ (∀ (base : Str) (fs : FS),
        get_copy_content (str "html") (str "home") (str "home") [] (str "solid") base fs =
          str "<i class=\"fas fa-home\"></i>")
    ∧ (∀ (base : Str) (fs : FS),
        get_copy_content (str "unicode") (str "home") (str "home") [] (str "solid") base fs =
          str "fas fa-home") := by
  refine ⟨⟨style_short_solid, style_short_regular, fun st h1 h2 => style_short_other h1 h2⟩,
    ?_, ?_, ?_, ?_, ?_, ?_⟩
  · intro n id uv st base fs
    rw [get_copy_content_html, htmlSnippet]
  · intro n id uv st base fs
    rw [get_copy_content_class, classSnippet]
  · intro n id st base fs
    rw [get_copy_content_unicode_empty, get_copy_content_class]
  · intro fmt n id uv st base fs h1 h2 h3 h4
    rw [get_copy_content_unrecognized fmt n id uv st base fs h1 h2 h3 h4,
      get_copy_content_html]
  · intro base fs
    rw [get_copy_content_html, htmlSnippet, style_short_solid]
    decide
  · intro base fs
    rw [get_copy_content_unicode_empty, classSnippet, style_short_solid]
    decide

/-- Claim C9 witness: the style-normalization part of c9_formats applied at
the concrete style "brands". -/
theorem c9_witness : style_short (str "brands") = 'b' :=
  c9_formats.1.2.2 (str "brands") (by decide) (by decide)

/-- Claim C1 counterexample: recoloring is not idempotent for every color
value.  With the color consisting of one double-quote character, the first
application of recolor to an SVG without a fill attribute produces a file
that the second application changes again; the same happens for the
quote-free color a\g<0>b, whose replacement template references the whole
match. -/
theorem c1_counterexample :
    ((modify_svg_color (modify_svg_color (ReadResult.ok (str "<svg/>")) (str "\"")).1
        (str "\"")).1 ≠
      (modify_svg_color (ReadResult.ok (str "<svg/>")) (str "\"")).1)
    ∧ ((modify_svg_color (modify_svg_color (ReadResult.ok (str "<svg/>"))
        (str "a\\g<0>b")).1 (str "a\\g<0>b")).1 ≠
      (modify_svg_color (ReadResult.ok (str "<svg/>")) (str "a\\g<0>b")).1) := by
  constructor
  · have e1 : modify_svg_color (ReadResult.ok (str "<svg/>")) (str "\"") =
        (ReadResult.ok (str "<svg fill=\"\"\"/>"), true) := by
      rw [modify_svg_color_ok, modifyContent_insert (by decide) (by decide)]
      simp [replaceSvg, insRepl, svgTag, str, List.isPrefixOf]
    have e2 : modify_svg_color (ReadResult.ok (str "<svg fill=\"\"\"/>")) (str "\"") =
        (ReadResult.ok (str "<svg fill=\"\"\"\"/>"), true) := by
      rw [modify_svg_color_ok, modifyContent_subst (by decide) (by decide) (by decide)]
      rw [show subFillC (str "\"") (str "<svg fill=\"\"\"/>") = str "<svg fill=\"\"\"\"/>"
        from by
          rw [subFillC]
          simp [subFill, litToks, mkTemplate, fillQuote, str, List.isPrefixOf,
            findCloseQuote, renderToks]]
    rw [e1]
    simp only []
    rw [e2]
    simp [str]
  · have e1 : modify_svg_color (ReadResult.ok (str "<svg/>")) (str "a\\g<0>b") =
        (ReadResult.ok (str "<svg fill=\"a\\g<0>b\"/>"), true) := by
      rw [modify_svg_color_ok, modifyContent_insert (by decide) (by decide)]
      simp [replaceSvg, insRepl, svgTag, str, List.isPrefixOf]
    have e2 : modify_svg_color (ReadResult.ok (str "<svg fill=\"a\\g<0>b\"/>"))
        (str "a\\g<0>b") =
        (ReadResult.ok (str "<svg fill=\"afill=\"a\\g<0>b\"b\"/>"), true) := by
      rw [modify_svg_color_ok]
      rw [show modifyContent (str "<svg fill=\"a\\g<0>b\"/>") (str "a\\g<0>b") =
          some (str "<svg fill=\"afill=\"a\\g<0>b\"b\"/>") from by
        rw [modifyContent, if_pos (by decide), if_neg (by decide)]
        rw [show mkTemplate (str "a\\g<0>b") =
            'f' :: 'i' :: 'l' :: 'l' :: '=' :: '"' :: 'a' :: '\\' :: 'g' :: '<' ::
              '0' :: '>' :: 'b' :: '"' :: [] from by decide]
        rw [compileTemplate_cons_lit (by decide), compileTemplate_cons_lit (by decide),
          compileTemplate_cons_lit (by decide), compileTemplate_cons_lit (by decide),
          compileTemplate_cons_lit (by decide), compileTemplate_cons_lit (by decide),
          compileTemplate_cons_lit (by decide),
          compileTemplate_cons_esc (show parseEscape
            ('g' :: '<' :: '0' :: '>' :: 'b' :: '"' :: []) =
              some ([Tok.g0], 'b' :: '"' :: []) from by decide),
          compileTemplate_cons_lit (by decide), compileTemplate_cons_lit (by decide),
          compileTemplate_nil]
        simp [subFill, str, List.isPrefixOf, fillQuote, findCloseQuote, renderToks]]
    rw [e1]
    simp only []
    rw [e2]
    simp [str]

/-- Claim C1 (amended): for every file state and every color value containing
neither a double-quote nor a backslash character, applying recolor twice in
succession with the same color leaves the file byte-identical to its contents
after the first application. -/
theorem c1_amended (r : ReadResult) (color : Str) (hq : '"' ∉ color)
    (hb : '\\' ∉ color) :
    (modify_svg_color (modify_svg_color r color).1 color).1 =
      (modify_svg_color r color).1 :=
  modify_svg_color_idem r color hq hb

/-- Claim C1 witness: c1_amended applied at a concrete file and the concrete
color #ff0000. -/
theorem c1_witness :
    (modify_svg_color (modify_svg_color (ReadResult.ok (str "<svg/>"))
        (str "#ff0000")).1 (str "#ff0000")).1 =
      (modify_svg_color (ReadResult.ok (str "<svg/>")) (str "#ff0000")).1 :=
  c1_amended (ReadResult.ok (str "<svg/>")) (str "#ff0000") (by decide) (by decide)

/-- Claim C2 counterexample: the insertion is not a single fill attribute on
the svg tag: in a document containing two occurrences of the substring <svg
and no fill, str.replace inserts one fill attribute after each occurrence,
giving two fill attributes.  Moreover the substituted value is not always
the new color: for the color a\\b (two backslashes) the written value is the
escape-interpreted a\b, and for the color consisting of one double quote the
resulting document does not carry that color as its fill value. -/
theorem c2_counterexample :
    (modifyContent (str "<svg><svg>") (str "#fff") =
        some (str "<svg fill=\"#fff\"><svg fill=\"#fff\">")
      ∧ (fillValues (str "<svg fill=\"#fff\"><svg fill=\"#fff\">")).length = 2)
    ∧ (modifyContent (str "<svg fill=\"x\"/>") (str "a\\\\b") =
        some (str "<svg fill=\"a\\b\"/>")
      ∧ str "<svg fill=\"a\\b\"/>" ≠ str "<svg fill=\"a\\\\b\"/>")
    ∧ (modifyContent (str "<svg fill=\"x\"/>") (str "\"") =
        some (str "<svg fill=\"\"\"/>")
      ∧ fillValues (str "<svg fill=\"\"\"/>") ≠ [str "\""]) := by
  refine ⟨⟨?_, ?_⟩, ⟨?_, by simp [str]⟩, ⟨?_, ?_⟩⟩
  · rw [modifyContent_insert (by decide) (by decide)]
    simp [replaceSvg, insRepl, svgTag, str, List.isPrefixOf]
  · simp [fillValues, str, fillQuote, List.isPrefixOf, findCloseQuote]
  · rw [modifyContent, if_pos (by decide), if_neg (by decide)]
    rw [show mkTemplate (str "a\\\\b") =
        'f' :: 'i' :: 'l' :: 'l' :: '=' :: '"' :: 'a' :: '\\' :: '\\' :: 'b' ::
          '"' :: [] from by decide]
    rw [compileTemplate_cons_lit (by decide), compileTemplate_cons_lit (by decide),
      compileTemplate_cons_lit (by decide), compileTemplate_cons_lit (by decide),
      compileTemplate_cons_lit (by decide), compileTemplate_cons_lit (by decide),
      compileTemplate_cons_lit (by decide),
      compileTemplate_cons_esc (show parseEscape ('\\' :: 'b' :: '"' :: []) =
        some ([Tok.lit '\\'], 'b' :: '"' :: []) from by decide),
      compileTemplate_cons_lit (by decide), compileTemplate_cons_lit (by decide),
      compileTemplate_nil]
    simp [subFill, str, List.isPrefixOf, fillQuote, findCloseQuote, renderToks]
  · rw [modifyContent_subst (by decide) (by decide) (by decide)]
    rw [show subFillC (str "\"") (str "<svg fill=\"x\"/>") = str "<svg fill=\"\"\"/>"
      from by
        rw [subFillC]
        simp [subFill, litToks, mkTemplate, fillQuote, str, List.isPrefixOf,
          findCloseQuote, renderToks]]
  · simp [fillValues, str, fillQuote, List.isPrefixOf, findCloseQuote]

/-- Claim C2 (amended): for every document containing an svg tag and every
color containing neither a double quote nor a backslash: if a double-quoted
fill attribute exists anywhere in the document, recolor substitutes every
such occurrence with the new color (the sequence of double-quoted fill
values of the result is the original sequence with every value replaced by
the color); if the document contains no fill substring at all, recolor
inserts one fill attribute with the requested color immediately after each
occurrence of <svg (so exactly one when the document has exactly one such
occurrence, and the fill values of the result are countSvg copies of the
color). -/
theorem c2_amended (s color : Str) (hq : '"' ∉ color) (hb : '\\' ∉ color)
    (hsvg : containsSub svgTag s = true) :
    (hasFillMatch s = true →
      modifyContent s color = some (subFillC color s) ∧
      fillValues (subFillC color s) = (fillValues s).map (fun _ => color))
    ∧ (containsSub fillEq s = false →
      modifyContent s color = some (replaceSvg (insRepl color) s) ∧
      fillValues (replaceSvg (insRepl color) s) =
        List.replicate (countSvg s) color) := by
  constructor
  · intro hm
    exact ⟨modifyContent_subst hsvg (containsSub_fillEq_of_hasFillMatch s hm) hb,
      fillValues_subFillC hq s⟩
  · intro hnf
    exact ⟨modifyContent_insert hsvg hnf, countSvg_replicate hq s hnf⟩

/-- Claim C2 witness: the insertion part of c2_amended applied at a concrete
single-tag document without fill. -/
theorem c2_witness :
    modifyContent (str "<svg/>") (str "#abc") =
      some (replaceSvg (insRepl (str "#abc")) (str "<svg/>")) ∧
    fillValues (replaceSvg (insRepl (str "#abc")) (str "<svg/>")) =
      List.replicate (countSvg (str "<svg/>")) (str "#abc") :=
  (c2_amended (str "<svg/>") (str "#abc") (by decide) (by decide) (by decide)).2
    (by decide)

